import Mathlib

/-!
# cloudflare-cors-anywhere: the request handler of `src/index.js`

A shallow embedding of the worker's `fetch` handler and of the platform
functions it calls, followed by the properties proved about it.

JavaScript strings are modelled by `String` (sequences of code points); the
functions below work on the character list so that they reduce by evaluation.
-/

set_option autoImplicit false

namespace CorsAnywhere

/-! ## ECMAScript `decodeURIComponent` -/

/-- Value of a hexadecimal digit, `none` for any other character. -/
def hexDigit (c : Char) : Option Nat :=
  let n := c.toNat
  if 48 ≤ n ∧ n ≤ 57 then some (n - 48)
  else if 65 ≤ n ∧ n ≤ 70 then some (n - 55)
  else if 97 ≤ n ∧ n ≤ 102 then some (n - 87)
  else none

/-- One item of the input of `Decode`: a character copied as it is, or the
octet written by an escape `%XY`. -/
inductive Token where
  | raw (c : Char)
  | octet (b : Nat)
  deriving DecidableEq, Repr

/-- Reads the escapes of a string. A `%` that is not followed by two
hexadecimal digits makes `Decode` throw a `URIError` (`none`). -/
def readEscapes : List Char → Option (List Token)
  | [] => some []
  | c :: rest =>
    if c = '%' then
      match rest with
      | a :: b :: rest2 =>
        match hexDigit a, hexDigit b, readEscapes rest2 with
        | some x, some y, some us => some (Token.octet (16 * x + y) :: us)
        | _, _, _ => none
      | _ => none
    else
      match readEscapes rest with
      | some us => some (Token.raw c :: us)
      | none => none

/-- The six payload bits of a UTF-8 continuation octet `10xxxxxx`. -/
def continuation : Token → Option Nat
  | Token.octet b => if 128 ≤ b ∧ b < 192 then some (b - 128) else none
  | Token.raw _ => none

/-- The code point `v` read from an `n`-octet sequence is accepted when the
sequence is a well-formed UTF-8 encoding: not overlong, not a surrogate, and
at most U+10FFFF. -/
def scalar (lo : Nat) (v : Nat) : Option Char :=
  if lo ≤ v ∧ v ≤ 1114111 ∧ ¬ (55296 ≤ v ∧ v ≤ 57343) then some (Char.ofNat v) else none

/-- Turns the octets of the escapes into characters. An octet sequence that
is not the UTF-8 encoding of a code point makes `Decode` throw a `URIError`
(`none`). -/
def decodeUnits : List Token → Option (List Char)
  | [] => some []
  | Token.raw c :: rest =>
    match decodeUnits rest with
    | some cs => some (c :: cs)
    | none => none
  | Token.octet b :: rest =>
    if b < 128 then
      match decodeUnits rest with
      | some cs => some (Char.ofNat b :: cs)
      | none => none
    else if 192 ≤ b ∧ b < 224 then
      match rest with
      | u1 :: rest1 =>
        match continuation u1, decodeUnits rest1 with
        | some x1, some cs =>
          match scalar 128 ((b - 192) * 64 + x1) with
          | some c => some (c :: cs)
          | none => none
        | _, _ => none
      | _ => none
    else if 224 ≤ b ∧ b < 240 then
      match rest with
      | u1 :: u2 :: rest2 =>
        match continuation u1, continuation u2, decodeUnits rest2 with
        | some x1, some x2, some cs =>
          match scalar 2048 ((b - 224) * 4096 + x1 * 64 + x2) with
          | some c => some (c :: cs)
          | none => none
        | _, _, _ => none
      | _ => none
    else if 240 ≤ b ∧ b < 248 then
      match rest with
      | u1 :: u2 :: u3 :: rest3 =>
        match continuation u1, continuation u2, continuation u3, decodeUnits rest3 with
        | some x1, some x2, some x3, some cs =>
          match scalar 65536 ((b - 240) * 262144 + x1 * 4096 + x2 * 64 + x3) with
          | some c => some (c :: cs)
          | none => none
        | _, _, _, _ => none
      | _ => none
    else none

/-- ECMAScript `decodeURIComponent(s)`: every escape sequence is replaced by
the character it encodes and every other character is copied. `none` stands
for the `URIError` the function throws on a malformed sequence. -/
def decodeURIComponent (s : String) : Option String :=
  match readEscapes s.data with
  | some us =>
    match decodeUnits us with
    | some cs => some (String.mk cs)
    | none => none
  | none => none

/-! ## Regular expressions: `String.prototype.match` with a pattern

The patterns of the configuration lists and of the header filter are regular
expressions built from literal characters, `.`, `^`, `$`, sequencing,
alternation and `*`. `uri.match(pattern) !== null` holds when the pattern
matches at some position of `uri` (the search is not anchored). Positions
are counted in UTF-16 code units, as the patterns have no `u` flag. -/

/-- Abstract syntax of a pattern. -/
inductive Regex where
  | empty : Regex
  | bol : Regex
  | eol : Regex
  | char (c : Char) : Regex
  | dot : Regex
  | seq (a b : Regex) : Regex
  | alt (a b : Regex) : Regex
  | star (a : Regex) : Regex

/-- The pattern that matches the characters of `w` literally. -/
def Regex.lit (w : List Char) : Regex :=
  w.foldr (fun c r => Regex.seq (Regex.char c) r) Regex.empty

/-- Line terminators: the characters `.` does not match. -/
def isLineTerminator (c : Char) : Bool :=
  c.toNat == 10 || c.toNat == 13 || c.toNat == 8232 || c.toNat == 8233

/-- Whether a character takes two UTF-16 code units, a pair of surrogates. -/
def isAstral (c : Char) : Bool := decide (65536 ≤ c.toNat)

/-- Length of a text in UTF-16 code units. -/
def unitLength : List Char → Nat
  | [] => 0
  | c :: cs => (if isAstral c then 2 else 1) + unitLength cs

/-- A position in the subject string, counted in code units: what is left to
read, whether the position is the start of the string, and whether it lies
inside the first character of `rest`, between its two surrogates. -/
structure Cursor where
  atStart : Bool
  half : Bool
  rest : List Char
  deriving DecidableEq, Repr

/-- The code units left to read at a position. -/
def Cursor.left (p : Cursor) : Nat :=
  unitLength p.rest - (if p.half then 1 else 0)

/-- Repetition: the positions reached from `p` by running `step` any number
of times, each run consuming at least one code unit. -/
def iterate (step : Cursor → List Cursor) : Nat → Cursor → List Cursor
  | 0, p => [p]
  | n + 1, p =>
    p :: ((step p).filter (fun q => q.left < p.left)).flatMap (iterate step n)

/-- All positions at which a match of the pattern that starts at `p` can end.
The pattern has no `u` flag: `.` reads one code unit, so it stops inside a
character that takes two; a literal character is read whole, and never
from inside a character. -/
def Regex.run : Regex → Cursor → List Cursor
  | Regex.empty, p => [p]
  | Regex.bol, p => if p.atStart then [p] else []
  | Regex.eol, p => if p.rest.isEmpty then [p] else []
  | Regex.char c, p =>
    if p.half then []
    else
      match p.rest with
      | x :: xs => if x = c then [⟨false, false, xs⟩] else []
      | [] => []
  | Regex.dot, p =>
    match p.rest with
    | x :: xs =>
      if p.half then [⟨false, false, xs⟩]
      else if isLineTerminator x then []
      else if isAstral x then [⟨false, true, x :: xs⟩]
      else [⟨false, false, xs⟩]
    | [] => []
  | Regex.seq a b, p => (a.run p).flatMap (fun q => b.run q)
  | Regex.alt a b, p => a.run p ++ b.run p
  | Regex.star a, p => iterate (fun q => a.run q) p.left p

/-- Every position of a string, the first one flagged as its start; a
character that takes two code units has a position inside it. -/
def cursorsFrom (atStart : Bool) : List Char → List Cursor
  | [] => [⟨atStart, false, []⟩]
  | c :: cs =>
    ⟨atStart, false, c :: cs⟩ ::
      (if isAstral c then ⟨false, true, c :: cs⟩ :: cursorsFrom false cs
        else cursorsFrom false cs)

/-- The test `s.match(pattern) !== null`. -/
def Regex.test (r : Regex) (s : String) : Bool :=
  (cursorsFrom true s.data).any (fun p => !(r.run p).isEmpty)

/-! ## Strings, header lists and JavaScript values -/

/-- The method `s.substr(1)`: the string without its first character. -/
def substr1 (s : String) : String := String.mk (s.data.drop 1)

/-- The method `s.startsWith(t)`. -/
def startsWith (s t : String) : Bool := t.data.isPrefixOf s.data

/-- The method `xs.join(sep)` on an array of strings. -/
def join (sep : String) : List String → String
  | [] => ""
  | [a] => a
  | a :: b :: rest => a ++ sep ++ join sep (b :: rest)

/-- Header names are compared and listed in lower case. -/
def lower (s : String) : String := String.mk (s.data.map Char.toLower)

/-- Conversion of `string | null` to a string, as done by a template
literal or by `Headers.set`: `null` becomes the text `null`. -/
def toStr : Option String → String
  | some s => s
  | none => "null"

/-- A `Headers` object: the header list, names written as they were
received. Values are taken as the platform delivers them (normalized). -/
structure Headers where
  list : List (String × String)

/-- The method `headers.get(name)`: the values of the headers called `name`
(in any case), joined by a comma and a space, or `null` when there is none. -/
def Headers.get (h : Headers) (name : String) : Option String :=
  match (h.list.filter (fun p => lower p.1 == lower name)).map Prod.snd with
  | [] => none
  | v :: vs => some (join ", " (v :: vs))

/-- Sets the value of the first header called `name` and removes the others. -/
def setFirst (name value : String) : List (String × String) → List (String × String)
  | [] => []
  | p :: ps =>
    if lower p.1 == lower name then
      (p.1, value) :: ps.filter (fun q => !(lower q.1 == lower name))
    else p :: setFirst name value ps

/-- The method `headers.set(name, value)`. -/
def Headers.set (h : Headers) (name value : String) : Headers :=
  if h.list.any (fun p => lower p.1 == lower name) then Headers.mk (setFirst name value h.list)
  else Headers.mk (h.list ++ [(name, value)])

/-- The method `headers.delete(name)`. -/
def Headers.delete (h : Headers) (name : String) : Headers :=
  Headers.mk (h.list.filter (fun p => !(lower p.1 == lower name)))

/-- Order of strings by code point, shorter first among extensions. -/
def charsLE : List Char → List Char → Bool
  | [], _ => true
  | _ :: _, [] => false
  | a :: as, b :: bs => a.toNat < b.toNat || (a == b && charsLE as bs)

/-- Inserts a name at its place in a sorted list of names. -/
def insertOrdered (n : String) : List String → List String
  | [] => [n]
  | m :: ms => if charsLE n.data m.data then n :: m :: ms else m :: insertOrdered n ms

/-- Adds a name to a sorted list of distinct names. -/
def addName (n : String) (l : List String) : List String :=
  if n ∈ l then l else insertOrdered n l

/-- The distinct lower-case names of a header list, sorted. -/
def Headers.names (h : Headers) : List String :=
  h.list.foldr (fun p acc => addName (lower p.1) acc) []

/-- The iterator `headers.entries()`: one pair per lower-case name, in
sorted order, with the combined value of that name (each name has one
logical value here, `set-cookie` included). -/
def Headers.entries (h : Headers) : List (String × String) :=
  h.names.filterMap (fun n => (h.get n).map (fun v => (n, v)))

/-- A JavaScript value as `JSON.parse` produces it. -/
inductive JSValue where
  | null : JSValue
  | bool (b : Bool) : JSValue
  | number (q : ℚ) : JSValue
  | string (s : String) : JSValue
  | array (xs : List JSValue) : JSValue
  | object (props : List (String × JSValue)) : JSValue

/-- A plain object used as a dictionary: its own properties, listed in the
order they were created (the order plays no role below). -/
abbrev JSObject := List (String × JSValue)

/-- The assignment `obj[key] = value` on an object created by `{}`. For the
key `__proto__` the assignment goes to the accessor inherited from
`Object.prototype` and creates no property. -/
def JSObject.assign (obj : JSObject) (key : String) (value : JSValue) : JSObject :=
  if key = "__proto__" then obj
  else if obj.any (fun p => p.1 == key) then
    obj.map (fun p => if p.1 == key then (p.1, value) else p)
  else obj ++ [(key, value)]

/-- Pairs each element of an array-like value with its index as a key. -/
def indexed (xs : List JSValue) (start : Nat) : List (String × JSValue) :=
  match xs with
  | [] => []
  | x :: rest => (toString start, x) :: indexed rest (start + 1)

/-- The function `Object.entries(v)` for `v` other than `null`: the
properties of an object, the indexed elements of an array, the indexed
characters of a string, nothing for a number or a boolean. The handler
calls it only behind the test `v !== null`. -/
def objectEntries : JSValue → List (String × JSValue)
  | JSValue.object props => props
  | JSValue.array xs => indexed xs 0
  | JSValue.string s => indexed (s.data.map (fun c => JSValue.string (String.mk [c]))) 0
  | _ => []

/-! ## Requests, responses and the platform -/

/-- A parsed `URL`: its origin and its query component (`null` or a string). -/
structure URL where
  origin : String
  query : Option String

/-- The getter `url.search`: empty when the query is `null` or empty,
otherwise `?` followed by the query. -/
def URL.search (u : URL) : String :=
  match u.query with
  | none => ""
  | some q => if q = "" then "" else "?" ++ q

/-- The connection metadata `request.cf`. -/
structure Cf where
  country : Option String
  colo : Option String

/-- The inbound request. -/
structure Request where
  method : String
  url : URL
  headers : Headers
  body : Option (List Nat)
  cf : Option Cf

/-- The arguments of `new Request(request, init)`: the method and the body
of the inbound request, and `redirect` and `headers` of `init`. The field
`headers` is the plain object `filteredHeaders` as the handler hands it over;
the header list the request carries is built from it by the constructor. -/
structure Outbound where
  method : String
  redirect : String
  headers : JSObject
  body : Option (List Nat)

/-- The response of the target, with its body read to the end. -/
structure Upstream where
  status : Nat
  statusText : String
  headers : Headers
  body : List Nat

/-- The body given to `new Response`. -/
inductive Body where
  | text (s : String) : Body
  | arrayBuffer (bytes : List Nat) : Body

/-- The response of the handler; `body = none` is the `null` body. -/
structure Response where
  body : Option Body
  status : Nat
  statusText : String
  headers : Headers

/-- The response that `new Response(body, init)` builds once it has taken
its arguments. A text body brings the header
`content-type: text/plain;charset=UTF-8` unless `init.headers` names a
content type. -/
def newResponse (body : Option Body) (status : Nat) (statusText : String) (headers : Headers) :
    Response :=
  match body with
  | some (Body.text _) =>
    if (headers.get "Content-Type").isSome then Response.mk body status statusText headers
    else
      Response.mk body status statusText
        (Headers.mk (headers.list ++ [("content-type", "text/plain;charset=UTF-8")]))
  | _ => Response.mk body status statusText headers

/-- What the platform supplies. `fetch target newRequest` is the upstream
`fetch(targetUrl, newRequest)`, `none` when it rejects; `jsonParse` is
`JSON.parse`, `none` when it throws; `jsonStringify` is `JSON.stringify`;
`buildsRequest` tells whether `new Request(request, init)` takes the header
object of `init` (it throws a `TypeError` on a name that is not a header
name, such as `a b`, or a value that is not a header value);
`emptyBodyAsNull` tells whether `new Response` takes an empty body as `null`
at a null-body status (the Workers runtime) or throws there as for any
other body (the Fetch standard). -/
structure Env where
  fetch : String → Outbound → Option Upstream
  jsonParse : String → Option JSValue
  jsonStringify : JSValue → String
  buildsRequest : Outbound → Bool
  emptyBodyAsNull : Bool

/-- The two pattern lists of the configuration. -/
structure Config where
  blacklistUrls : List Regex
  whitelistOrigins : List Regex

/-- The configuration of the source: `blacklistUrls = []` and
`whitelistOrigins = [".*"]`. -/
def defaultConfig : Config :=
  Config.mk [] [Regex.star Regex.dot]

/-- An exception that leaves the handler: the `URIError` of
`decodeURIComponent`, the `TypeError` of `new Request` or `new Response`,
the rejection of the upstream `fetch`, or the `RangeError` of `new Response`. -/
inductive Failure where
  | uriError : Failure
  | fetchRejected : Failure
  | typeError : Failure
  | rangeError : Failure
  deriving DecidableEq, Repr

/-- The null-body statuses: 101, 103, 204, 205 and 304. -/
def nullBodyStatus (status : Nat) : Bool :=
  status == 101 || status == 103 || status == 204 || status == 205 || status == 304

/-- The statuses with which `new Response` takes a body that is not `null`:
those from 200 to 599 that are not null-body statuses. -/
def acceptsBody (status : Nat) : Bool :=
  decide (200 ≤ status) && decide (status ≤ 599) && !nullBodyStatus status

/-- Whether a body has no content. -/
def Body.isEmpty : Body → Bool
  | Body.text s => s.data.isEmpty
  | Body.arrayBuffer bytes => bytes.isEmpty

/-- The constructor `new Response(body, init)`. It throws a `RangeError` for
a status outside 200 to 599. At a null-body status a body that is not `null`
makes it throw a `TypeError`, except that a runtime with `emptyBodyAsNull`
takes an empty body as `null`. The status text and the headers are taken as
valid: they come from an upstream response or from the handler. -/
def constructResponse (emptyBodyAsNull : Bool) (body : Option Body) (status : Nat)
    (statusText : String) (headers : Headers) : Except Failure Response :=
  if status < 200 ∨ 599 < status then Except.error Failure.rangeError
  else if nullBodyStatus status then
    match body with
    | none => Except.ok (newResponse none status statusText headers)
    | some b =>
      if emptyBodyAsNull && b.isEmpty then Except.ok (newResponse none status statusText headers)
      else Except.error Failure.typeError
  else Except.ok (newResponse body status statusText headers)

/-- One run of the handler: the upstream calls it made, in order, and the
response it returned or the exception it threw. -/
structure Outcome where
  fetched : List (String × Outbound)
  result : Except Failure Response

def repoUrl : String := "https://github.com/FineArchs/cloudflare-cors-anywhere"
def originalRepoUrl : String := "https://github.com/Zibri/cloudflare-cors-anywhere"
def donateUrl : String := "https://paypal.me/Zibri/5"

/-! ## The source: `isListedInWhitelist` and the handler -/

/-- Function `isListedInWhitelist(uri, listing)`; `uri = none` is `null`. -/
def isListedInWhitelist (uri : Option String) (listing : List Regex) : Bool :=
  match uri with
  | some u =>
    listing.foldl (fun isListed pattern => if pattern.test u then true else isListed) false
  | none => true

/-- Constant `isPreflightRequest`. -/
def isPreflightRequest (request : Request) : Bool := request.method == "OPTIONS"

/-- Function `setupCORSHeaders(headers)` of a given request. -/
def setupCORSHeaders (request : Request) (headers : Headers) : Headers :=
  let headers := headers.set "Access-Control-Allow-Origin" "*"
  if isPreflightRequest request then
    let headers := headers.set "Access-Control-Allow-Methods"
      (toStr (request.headers.get "access-control-request-method"))
    let requestedHeaders := request.headers.get "access-control-request-headers"
    let headers :=
      match requestedHeaders with
      | some v => if v = "" then headers else headers.set "Access-Control-Allow-Headers" v
      | none => headers
    headers.delete "X-Content-Type-Options"
  else headers

/-- Constant `targetUrl`: the query decoded twice. -/
def targetUrl (request : Request) : Option String :=
  match decodeURIComponent (substr1 request.url.search) with
  | some once => decodeURIComponent once
  | none => none

/-- The condition of the policy check on the target and the `Origin` header. -/
def policyCheck (cfg : Config) (target : String) (originHeader : Option String) : Bool :=
  !isListedInWhitelist (some target) cfg.blacklistUrls &&
    isListedInWhitelist originHeader cfg.whitelistOrigins

/-- Variable `customHeaders` after the attempt to parse it: `null` when the
header is absent, the parsed value, or the raw text when parsing throws. -/
def customHeaders (env : Env) (request : Request) : JSValue :=
  match request.headers.get "x-cors-headers" with
  | none => JSValue.null
  | some raw =>
    match env.jsonParse raw with
    | some v => v
    | none => JSValue.string raw

/-- The five patterns of the header filter: `^origin`, `eferer`, `^cf-`,
`^x-forw` and `^x-cors-headers`. -/
def patOrigin : Regex := Regex.seq Regex.bol (Regex.lit "origin".data)
def patEferer : Regex := Regex.lit "eferer".data
def patCf : Regex := Regex.seq Regex.bol (Regex.lit "cf-".data)
def patXForw : Regex := Regex.seq Regex.bol (Regex.lit "x-forw".data)
def patXCorsHeaders : Regex := Regex.seq Regex.bol (Regex.lit "x-cors-headers".data)

/-- The condition under which the loop over `request.headers.entries()`
copies a header: its key matches none of the five patterns. -/
def keepsHeader (key : String) : Bool :=
  !patOrigin.test key && !patEferer.test key && !patCf.test key && !patXForw.test key &&
    !patXCorsHeaders.test key

/-- Object `filteredHeaders`: the inbound headers that pass the filter, then
the entries of `customHeaders` when it is not `null`. -/
def filteredHeaders (request : Request) (custom : JSValue) : JSObject :=
  let filtered : JSObject :=
    request.headers.entries.foldl
      (fun obj kv => if keepsHeader kv.1 then obj.assign kv.1 (JSValue.string kv.2) else obj) []
  match custom with
  | JSValue.null => filtered
  | v => (objectEntries v).foldl (fun obj entry => obj.assign entry.1 entry.2) filtered

/-- A value used as a condition: `undefined` and the empty string are falsy. -/
def truthy : Option String → Option String
  | some s => if s = "" then none else some s
  | none => none

/-- The lines of the info page: the array of the source after `.flat()`. -/
def infoLines (env : Env) (request : Request) (custom : JSValue) : List String :=
  let originHeader := request.headers.get "Origin"
  let connectingIp := request.headers.get "CF-Connecting-IP"
  let country := match request.cf with
    | some cf => truthy cf.country
    | none => none
  let colo := match request.cf with
    | some cf => truthy cf.colo
    | none => none
  List.flatten [
    ["CLOUDFLARE-CORS-ANYWHERE"],
    [""],
    ["Source:"],
    [repoUrl],
    [""],
    ["Original:"],
    [originalRepoUrl],
    [""],
    ["Usage:"],
    [request.url.origin ++ "/?uri"],
    [""],
    ["Donate:"],
    [donateUrl],
    [""],
    ["Limits: 100,000 requests/day"],
    ["          1,000 requests/10 minutes"],
    [""],
    (match originHeader with
      | some o => ["Origin: " ++ o]
      | none => []),
    ["IP: " ++ toStr connectingIp],
    (match country with
      | some c => ["Country: " ++ c]
      | none => []),
    (match colo with
      | some c => ["Datacenter: " ++ c]
      | none => []),
    [""],
    (match custom with
      | JSValue.null => []
      | v => ["", "x-cors-headers: " ++ env.jsonStringify v])]

/-- The text of the info page: the lines joined by a line feed. -/
def infoBody (env : Env) (request : Request) (custom : JSValue) : String :=
  join "\n" (infoLines env request custom)

/-- The text of the forbidden page. -/
def forbiddenBody : String :=
  join "<br>\n" [
    "Create your own CORS proxy",
    "<a href='" ++ repoUrl ++ "'>" ++ repoUrl ++ "</a>",
    "Donate",
    "<a href='" ++ donateUrl ++ "'>" ++ donateUrl ++ "</a>"]

/-- The response of the branch taken when the policy check fails; the
constructor takes the status 403. -/
def forbiddenResponse : Response :=
  newResponse (some (Body.text forbiddenBody)) 403 "Forbidden"
    (Headers.mk [("Content-Type", "text/html")])

/-- Variable `responseHeaders` of the forwarding branch, as given to
`new Response`. -/
def forwardHeaders (env : Env) (request : Request) (response : Upstream) : Headers :=
  let responseHeaders := Headers.mk response.headers.entries
  let exposedHeaders := response.headers.entries.map Prod.fst ++ ["cors-received-headers"]
  let allResponseHeaders : JSObject :=
    response.headers.entries.foldl (fun obj kv => obj.assign kv.1 (JSValue.string kv.2)) []
  let responseHeaders := setupCORSHeaders request responseHeaders
  let responseHeaders := responseHeaders.set "Access-Control-Expose-Headers" (join "," exposedHeaders)
  responseHeaders.set "cors-received-headers" (env.jsonStringify (JSValue.object allResponseHeaders))

/-- Constant `responseBody` of the forwarding branch. -/
def forwardBody (request : Request) (response : Upstream) : Option Body :=
  if isPreflightRequest request then none else some (Body.arrayBuffer response.body)

/-- The status of `responseInit`. -/
def forwardStatus (request : Request) (response : Upstream) : Nat :=
  if isPreflightRequest request then 200 else response.status

/-- The status text of `responseInit`. -/
def forwardStatusText (request : Request) (response : Upstream) : String :=
  if isPreflightRequest request then "OK" else response.statusText

/-- The end of the forwarding branch, `new Response(responseBody,
responseInit)`: the response, or the exception of the constructor. -/
def forwardResult (env : Env) (request : Request) (response : Upstream) :
    Except Failure Response :=
  constructResponse env.emptyBodyAsNull (forwardBody request response)
    (forwardStatus request response) (forwardStatusText request response)
    (forwardHeaders env request response)

/-- The response of the forwarding branch when the constructor takes its
arguments as they are. -/
def forwardResponse (env : Env) (request : Request) (response : Upstream) : Response :=
  newResponse (forwardBody request response) (forwardStatus request response)
    (forwardStatusText request response) (forwardHeaders env request response)

/-- The response of the info branch; the constructor takes the status 200. -/
def infoResponse (env : Env) (request : Request) (custom : JSValue) : Response :=
  newResponse (some (Body.text (infoBody env request custom))) 200 ""
    (setupCORSHeaders request (Headers.mk []))

/-- Constant `newRequest`: the inbound request with `redirect: "follow"` and
the filtered headers. -/
def newRequest (env : Env) (request : Request) : Outbound :=
  Outbound.mk request.method "follow" (filteredHeaders request (customHeaders env request))
    request.body

/-- The upstream call of the forwarding branch: `new Request(request, init)`,
which may throw, then `fetch(targetUrl, newRequest)`, which may reject. -/
def upstreamCall (env : Env) (request : Request) (target : String) : Except Failure Upstream :=
  if env.buildsRequest (newRequest env request) then
    match env.fetch target (newRequest env request) with
    | some response => Except.ok response
    | none => Except.error Failure.fetchRejected
  else Except.error Failure.typeError

/-- The handler `fetch(request)`. An upstream call is recorded when the
handler gets to `fetch(targetUrl, newRequest)`, that is once `new Request`
has returned. -/
def fetch (cfg : Config) (env : Env) (request : Request) : Outcome :=
  match targetUrl request with
  | none => Outcome.mk [] (Except.error Failure.uriError)
  | some target =>
    let originHeader := request.headers.get "Origin"
    if policyCheck cfg target originHeader then
      let custom := customHeaders env request
      if startsWith request.url.search "?" then
        if env.buildsRequest (newRequest env request) then
          match env.fetch target (newRequest env request) with
          | none =>
            Outcome.mk [(target, newRequest env request)] (Except.error Failure.fetchRejected)
          | some response =>
            Outcome.mk [(target, newRequest env request)] (forwardResult env request response)
        else Outcome.mk [] (Except.error Failure.typeError)
      else Outcome.mk [] (Except.ok (infoResponse env request custom))
    else Outcome.mk [] (Except.ok forbiddenResponse)

/-! ## Sample platforms and requests -/

/-- An upstream answer: 404 with its own CORS and sniffing headers. -/
def sampleUpstream : Upstream :=
  Upstream.mk 404 "Not Found"
    (Headers.mk [("Access-Control-Allow-Origin", "https://a.example"),
      ("X-Content-Type-Options", "nosniff"), ("Access-Control-Allow-Headers", "x-up")])
    [104, 105]

/-- The characters of a header name: letters, digits and the signs
`!#$%&*+-.^_|~`, the apostrophe and the backquote. -/
def isTokenChar (c : Char) : Bool :=
  let n := c.toNat
  n == 33 || (decide (35 ≤ n) && decide (n ≤ 39)) || n == 42 || n == 43 || n == 45 || n == 46 ||
    (decide (48 ≤ n) && decide (n ≤ 57)) || (decide (65 ≤ n) && decide (n ≤ 90)) ||
    (decide (94 ≤ n) && decide (n ≤ 122)) || n == 124 || n == 126

/-- The check of `new Request` on the names of the header object: each is a
header name, not empty and made of the characters above. The values of the
samples are plain texts, which the constructor takes. -/
def namesAreTokens (init : Outbound) : Bool :=
  init.headers.all (fun p => !p.1.data.isEmpty && p.1.data.all isTokenChar)

/-- A platform whose target answers with `sampleUpstream`. The sample
requests carry no `x-cors-headers`, so `JSON.parse` is never consulted, and
no statement below reads a value of `JSON.stringify`. -/
def envUp : Env :=
  Env.mk (fun _ _ => some sampleUpstream) (fun _ => none) (fun _ => "") namesAreTokens true

/-- A platform whose upstream `fetch` rejects (target unreachable). -/
def envDown : Env :=
  Env.mk (fun _ _ => none) (fun _ => none) (fun _ => "") namesAreTokens true

/-- The URL `https://proxy.example/?https%3A%2F%2Fexample.com%2Fdata`. -/
def urlData : URL := URL.mk "https://proxy.example" (some "https%3A%2F%2Fexample.com%2Fdata")

/-- The URL `https://proxy.example/`. -/
def urlBare : URL := URL.mk "https://proxy.example" none

/-- Request `GET /?https%3A%2F%2Fexample.com%2Fdata` sent from a page. -/
def getData : Request :=
  Request.mk "GET" urlData
    (Headers.mk [("Origin", "https://caller.example"), ("Accept", "*/*")]) none none

/-- Request `OPTIONS /?https%3A%2F%2Fexample.com%2Fdata` with
`access-control-request-method: PUT`. -/
def optionsData : Request :=
  Request.mk "OPTIONS" urlData
    (Headers.mk [("access-control-request-method", "PUT"),
      ("access-control-request-headers", "x-token")]) none none

/-- Request `OPTIONS /?https%3A%2F%2Fexample.com%2Fdata` with an empty
`access-control-request-headers`. -/
def optionsEmpty : Request :=
  Request.mk "OPTIONS" urlData
    (Headers.mk [("access-control-request-method", "PUT"),
      ("access-control-request-headers", "")]) none none

/-- A configuration whose deny-list holds `^https://blocked\.example`. -/
def blockedConfig : Config :=
  Config.mk [Regex.seq Regex.bol (Regex.lit "https://blocked.example".data)]
    [Regex.star Regex.dot]

/-- Request `GET /?https%3A%2F%2Fblocked.example%2Fsecret`. -/
def getBlocked : Request :=
  Request.mk "GET" (URL.mk "https://proxy.example" (some "https%3A%2F%2Fblocked.example%2Fsecret"))
    (Headers.mk [("Accept", "*/*")]) none none

/-- Request `GET /?https%3A%2F%2Fexample.com%2Fdata` with the headers
`X-Cors-Headers-Extra`, `Referer` and `Accept` and no `x-cors-headers`. -/
def getExtra : Request :=
  Request.mk "GET" urlData
    (Headers.mk [("X-Cors-Headers-Extra", "1"), ("Referer", "https://caller.example/"),
      ("Accept", "*/*")]) none none

/-- `JSON.stringify` of a string that has no control character: the text
between double quotes, with the double quote and the backslash escaped. -/
def jsonQuote (s : String) : String :=
  String.mk ([Char.ofNat 34] ++
    s.data.flatMap (fun c =>
      if c = Char.ofNat 34 ∨ c = Char.ofNat 92 then [Char.ofNat 92, c] else [c]) ++
    [Char.ofNat 34])

/-- `JSON.stringify` on the values the samples give it: a string, or an
object whose values are strings. -/
def sampleStringify : JSValue → String
  | JSValue.string s => jsonQuote s
  | JSValue.object props =>
    "\x7b" ++ join "," (props.map (fun p =>
      jsonQuote p.1 ++ ":" ++
        (match p.2 with
          | JSValue.string s => jsonQuote s
          | _ => "null"))) ++ "\x7d"
  | _ => "null"

/-- The text `{"__proto__":"x"}`. -/
def protoText : String := "\x7b\"__proto__\":\"x\"\x7d"

/-- The text `{"origin":"https://other.example","accept":"text/html"}`. -/
def overrideText : String :=
  "\x7b\"origin\":\"https://other.example\",\"accept\":\"text/html\"\x7d"

/-- The text `{bad`, which is not JSON. -/
def badText : String := "\x7bbad"

/-- The text `{"a b":"x"}`. -/
def spacedText : String := "\x7b\"a b\":\"x\"\x7d"

/-- `JSON.parse` on the texts the samples give it: the three objects above,
and `{bad`, on which it throws. -/
def sampleParse (s : String) : Option JSValue :=
  if s = protoText then some (JSValue.object [("__proto__", JSValue.string "x")])
  else if s = spacedText then some (JSValue.object [("a b", JSValue.string "x")])
  else if s = overrideText then
    some (JSValue.object
      [("origin", JSValue.string "https://other.example"), ("accept", JSValue.string "text/html")])
  else none

/-- A platform whose target answers with `sampleUpstream`, with `JSON.parse`
and `JSON.stringify` as far as the samples use them. -/
def envJson : Env :=
  Env.mk (fun _ _ => some sampleUpstream) sampleParse sampleStringify namesAreTokens true

/-- An upstream answer that has a header called `__proto__`. -/
def protoUpstream : Upstream :=
  Upstream.mk 200 "OK" (Headers.mk [("__proto__", "x"), ("Content-Type", "text/plain")]) []

/-- A platform whose target answers with `protoUpstream`. -/
def envProto : Env :=
  Env.mk (fun _ _ => some protoUpstream) sampleParse sampleStringify namesAreTokens true

/-- Request `GET /?https%3A%2F%2Fexample.com%2Fdata` with `Accept` only. -/
def getPlain : Request :=
  Request.mk "GET" urlData (Headers.mk [("Accept", "*/*")]) none none

/-- The request `getPlain` with `x-cors-headers: {"__proto__":"x"}`. -/
def getProto : Request :=
  Request.mk "GET" urlData (Headers.mk [("x-cors-headers", protoText), ("Accept", "*/*")])
    none none

/-- The request `getPlain` with
`x-cors-headers: {"origin":"https://other.example","accept":"text/html"}`. -/
def getOverride : Request :=
  Request.mk "GET" urlData (Headers.mk [("x-cors-headers", overrideText), ("Accept", "*/*")])
    none none

/-- The request `getPlain` with `x-cors-headers: {bad`. -/
def getBad : Request :=
  Request.mk "GET" urlData (Headers.mk [("x-cors-headers", badText), ("Accept", "*/*")])
    none none

/-- The request `getPlain` with `x-cors-headers: {"a b":"x"}`. -/
def getSpaced : Request :=
  Request.mk "GET" urlData (Headers.mk [("x-cors-headers", spacedText), ("Accept", "*/*")])
    none none

/-- The request `optionsData` with `x-cors-headers: {"a b":"x"}`. -/
def optionsSpaced : Request :=
  Request.mk "OPTIONS" urlData
    (Headers.mk [("access-control-request-method", "PUT"), ("x-cors-headers", spacedText)])
    none none

/-- An upstream answer with the status 999. -/
def upstream999 : Upstream :=
  Upstream.mk 999 "Request denied" (Headers.mk [("Content-Type", "text/html")]) [60]

/-- An upstream answer with the status 204 and an empty body. -/
def upstream204 : Upstream :=
  Upstream.mk 204 "No Content" (Headers.mk []) []

/-- A platform whose target answers with the status 999. -/
def env999 : Env :=
  Env.mk (fun _ _ => some upstream999) sampleParse sampleStringify namesAreTokens true

/-- A platform whose target answers 204, on the Workers runtime. -/
def env204 : Env :=
  Env.mk (fun _ _ => some upstream204) sampleParse sampleStringify namesAreTokens true

/-- A platform whose target answers 204, on a runtime where `new Response`
follows the Fetch standard. -/
def env204Strict : Env :=
  Env.mk (fun _ _ => some upstream204) sampleParse sampleStringify namesAreTokens false

/-- Request `GET /` with no header and no connection metadata. -/
def getBare : Request :=
  Request.mk "GET" urlBare (Headers.mk []) none none

/-- Request `GET /` with `x-cors-headers: {bad`. -/
def getBareBad : Request :=
  Request.mk "GET" urlBare (Headers.mk [("x-cors-headers", badText)]) none none

/-- Request `GET /` with an `Origin`, a client address, a country and a
datacenter. -/
def getBareFull : Request :=
  Request.mk "GET" urlBare
    (Headers.mk [("Origin", "https://caller.example"), ("CF-Connecting-IP", "203.0.113.7")])
    none (some (Cf.mk (some "NL") (some "AMS")))

/-- Request `GET /?https%3A%2F%2Fblocked.example%2Fother` sent from a page,
with a cookie. -/
def getBlockedOther : Request :=
  Request.mk "GET" (URL.mk "https://proxy.example" (some "https%3A%2F%2Fblocked.example%2Fother"))
    (Headers.mk [("Origin", "https://evil.example"), ("Cookie", "a=b")]) none none

/-- Request `GET /?%`. -/
def getPercent : Request :=
  Request.mk "GET" (URL.mk "https://proxy.example" (some "%")) (Headers.mk []) none none

/-- Request `GET /?https://example.com/100%25`. -/
def getPercentEscaped : Request :=
  Request.mk "GET" (URL.mk "https://proxy.example" (some "https://example.com/100%25"))
    (Headers.mk []) none none

/-! ## Lemmas on patterns -/

/-- The bound on the number of repetitions loses nothing: beyond the number
of code units left to read, a larger bound gives the same positions. -/
theorem iterate_fuel (step : Cursor → List Cursor) (n m : Nat) (p : Cursor)
    (hn : p.left ≤ n) (hm : p.left ≤ m) :
    iterate step n p = iterate step m p := by
  induction n generalizing m p with
  | zero =>
    cases m with
    | zero => rfl
    | succ m =>
      have h0 : p.left = 0 := Nat.le_zero.1 hn
      simp [iterate, h0]
  | succ n ih =>
    cases m with
    | zero =>
      have h0 : p.left = 0 := Nat.le_zero.1 hm
      simp [iterate, h0]
    | succ m =>
      simp only [iterate]
      congr 1
      apply List.flatMap_congr
      intro q hq
      have hlt : q.left < p.left := by
        simpa using (List.mem_filter.1 hq).2
      exact ih m q (by omega) (by omega)

theorem lit_run (w : List Char) (b : Bool) (l : List Char) :
    (Regex.lit w).run (Cursor.mk b false l) =
      if w.isPrefixOf l then [Cursor.mk (b && w.isEmpty) false (l.drop w.length)] else [] := by
  induction w generalizing b l with
  | nil => simp [Regex.lit, Regex.run]
  | cons c w ih =>
    cases l with
    | nil => simp [Regex.lit, Regex.run]
    | cons x xs =>
      have h := ih false xs
      simp only [Regex.lit] at h
      by_cases hx : x = c
      · subst hx
        simp [Regex.lit, Regex.run, h]
      · have hx2 : ¬ c = x := fun e => hx e.symm
        simp [Regex.lit, Regex.run, hx, hx2]

theorem lit_run_half (w : List Char) (b : Bool) (l : List Char) :
    (Regex.lit w).run (Cursor.mk b true l) = if w.isEmpty then [Cursor.mk b true l] else [] := by
  cases w with
  | nil => simp [Regex.lit, Regex.run]
  | cons c w => simp [Regex.lit, Regex.run]

theorem lit_run_isEmpty (w : List Char) (b : Bool) (l : List Char) :
    (!((Regex.lit w).run (Cursor.mk b false l)).isEmpty) = w.isPrefixOf l := by
  rw [lit_run]
  by_cases h : w.isPrefixOf l = true <;> simp [h]

theorem lit_run_half_isEmpty (w : List Char) (b : Bool) (l : List Char) :
    (!((Regex.lit w).run (Cursor.mk b true l)).isEmpty) = w.isEmpty := by
  rw [lit_run_half]
  by_cases h : w.isEmpty = true <;> simp [h]

theorem any_cursors_lit (w : List Char) (b : Bool) (l : List Char) :
    (cursorsFrom b l).any (fun p => !((Regex.lit w).run p).isEmpty) = true ↔ w <:+: l := by
  induction l generalizing b with
  | nil =>
    simp [cursorsFrom, lit_run_isEmpty, List.isPrefixOf_iff_prefix]
  | cons x xs ih =>
    by_cases hx : isAstral x = true
    · rw [cursorsFrom, if_pos hx, List.any_cons, List.any_cons, Bool.or_eq_true, Bool.or_eq_true,
        ih false, lit_run_isEmpty, lit_run_half_isEmpty, List.isPrefixOf_iff_prefix,
        List.infix_cons_iff]
      constructor
      · rintro (h | h | h)
        · exact Or.inl h
        · have hw : w = [] := by simpa using h
          subst hw
          exact Or.inl (List.nil_prefix)
        · exact Or.inr h
      · rintro (h | h)
        · exact Or.inl h
        · exact Or.inr (Or.inr h)
    · rw [cursorsFrom, if_neg hx, List.any_cons, Bool.or_eq_true, ih false, lit_run_isEmpty,
        List.isPrefixOf_iff_prefix, List.infix_cons_iff]

theorem any_cursors_bol (r : Regex) (l : List Char) :
    (cursorsFrom false l).any (fun p => !((Regex.seq Regex.bol r).run p).isEmpty) = false := by
  induction l with
  | nil => simp [cursorsFrom, Regex.run]
  | cons x xs ih =>
    by_cases hx : isAstral x = true
    · simp only [cursorsFrom, hx, if_true, List.any_cons, ih, Bool.or_false]
      simp [Regex.run]
    · simp only [cursorsFrom, hx, if_false, List.any_cons, ih, Bool.or_false, Bool.false_eq_true]
      simp [Regex.run]

/-- A literal pattern matches exactly the strings that contain it. -/
theorem test_lit (w : List Char) (s : String) : (Regex.lit w).test s = true ↔ w <:+: s.data := by
  simp only [Regex.test]
  exact any_cursors_lit w true s.data

/-- A literal pattern behind `^` matches exactly the strings that start with it. -/
theorem test_bol_lit (w : List Char) (s : String) :
    (Regex.seq Regex.bol (Regex.lit w)).test s = true ↔ w <+: s.data := by
  have key : ∀ l : List Char,
      (cursorsFrom true l).any (fun p => !((Regex.seq Regex.bol (Regex.lit w)).run p).isEmpty)
        = w.isPrefixOf l := by
    intro l
    have hrun : ∀ l : List Char,
        (!((Regex.seq Regex.bol (Regex.lit w)).run (Cursor.mk true false l)).isEmpty)
          = w.isPrefixOf l := by
      intro l
      have := lit_run_isEmpty w true l
      simpa [Regex.run] using this
    cases l with
    | nil => simp only [cursorsFrom, List.any_cons, List.any_nil, Bool.or_false, hrun]
    | cons x xs =>
      by_cases hx : isAstral x = true
      · simp only [cursorsFrom, hx, if_true, List.any_cons, any_cursors_bol, Bool.or_false, hrun]
        simp [Regex.run]
      · simp only [cursorsFrom, hx, if_false, List.any_cons, any_cursors_bol, Bool.or_false, hrun,
          Bool.false_eq_true]
  simp only [Regex.test, key, List.isPrefixOf_iff_prefix]

/-! ## Lemmas on header lists -/

theorem filter_setFirst_same (n v : String) (l : List (String × String))
    (h : l.any (fun p => lower p.1 == lower n) = true) :
    ∃ nm, (setFirst n v l).filter (fun p => lower p.1 == lower n) = [(nm, v)] := by
  induction l with
  | nil => simp at h
  | cons p ps ih =>
    by_cases hp : lower p.1 = lower n
    · refine ⟨p.1, ?_⟩
      simp [setFirst, hp, List.filter_filter]
    · have h2 : ps.any (fun p => lower p.1 == lower n) = true := by
        simpa [hp] using h
      obtain ⟨nm, hnm⟩ := ih h2
      exact ⟨nm, by simp [setFirst, hp, hnm]⟩

theorem filter_setFirst_other (n v m : String) (hm : lower m ≠ lower n)
    (l : List (String × String)) :
    (setFirst n v l).filter (fun p => lower p.1 == lower m) =
      l.filter (fun p => lower p.1 == lower m) := by
  induction l with
  | nil => simp [setFirst]
  | cons p ps ih =>
    by_cases hp : lower p.1 = lower n
    · have hpm : ¬ lower p.1 = lower m := fun e => hm (e.symm.trans hp)
      have hq : ∀ q : String × String, lower q.1 = lower m → ¬ lower q.1 = lower n :=
        fun q e1 e2 => hm (e1.symm.trans e2)
      have hnm : ¬ lower n = lower m := fun e => hm e.symm
      simp only [setFirst, hp, beq_self_eq_true, if_true, List.filter_cons, beq_iff_eq, hnm,
        if_false, List.filter_filter]
      apply List.filter_congr
      intro q _
      by_cases hqm : lower q.1 = lower m
      · simp [hqm, hm]
      · simp [hqm]
    · simp [setFirst, hp, ih, List.filter_cons]

theorem Headers.get_set_same (h : Headers) (n v m : String) (hm : lower m = lower n) :
    (h.set n v).get m = some v := by
  unfold Headers.set Headers.get
  rw [hm]
  by_cases hany : h.list.any (fun p => lower p.1 == lower n) = true
  · obtain ⟨nm, hnm⟩ := filter_setFirst_same n v h.list hany
    simp only [hany, if_true, hnm, List.map_cons, List.map_nil, join]
  · have hnone : h.list.filter (fun p => lower p.1 == lower n) = [] := by
      simpa [List.filter_eq_nil_iff] using hany
    simp [hany, hnone, join]

theorem Headers.get_set_other (h : Headers) (n v m : String) (hm : lower m ≠ lower n) :
    (h.set n v).get m = h.get m := by
  unfold Headers.set Headers.get
  by_cases hany : h.list.any (fun p => lower p.1 == lower n) = true
  · simp only [hany, if_true, filter_setFirst_other n v m hm]
  · have hnm : ¬ lower n = lower m := fun e => hm e.symm
    simp [hany, hnm]

theorem Headers.get_delete_same (h : Headers) (n m : String) (hm : lower m = lower n) :
    (h.delete n).get m = none := by
  unfold Headers.delete Headers.get
  simp [List.filter_filter, hm]

theorem Headers.get_delete_other (h : Headers) (n m : String) (hm : lower m ≠ lower n) :
    (h.delete n).get m = h.get m := by
  unfold Headers.delete Headers.get
  have : (h.list.filter (fun p => !(lower p.1 == lower n))).filter (fun p => lower p.1 == lower m)
      = h.list.filter (fun p => lower p.1 == lower m) := by
    rw [List.filter_filter]
    apply List.filter_congr
    intro q _
    by_cases hqm : lower q.1 = lower m
    · have : ¬ lower q.1 = lower n := fun e => hm (hqm.symm.trans e)
      simp [hqm, hm]
    · simp [hqm]
  simp only [this]

theorem newResponse_get (body : Option Body) (status : Nat) (statusText : String)
    (headers : Headers) (m : String) (hm : lower m ≠ lower "content-type") :
    (newResponse body status statusText headers).headers.get m = headers.get m := by
  have happ : (Headers.mk (headers.list ++ [("content-type", "text/plain;charset=UTF-8")])).get m
      = headers.get m := by
    have hne : ¬ lower "content-type" = lower m := fun e => hm e.symm
    simp [Headers.get, List.filter_append, hne]
  unfold newResponse
  cases body with
  | none => rfl
  | some b =>
    cases b with
    | arrayBuffer bytes => rfl
    | text s =>
      by_cases hc : (headers.get "Content-Type").isSome = true
      · simp only [hc, if_true]
      · simp only [hc, if_false, Bool.false_eq_true]
        exact happ

theorem newResponse_fields (body : Option Body) (status : Nat) (statusText : String)
    (headers : Headers) :
    (newResponse body status statusText headers).body = body ∧
      (newResponse body status statusText headers).status = status ∧
      (newResponse body status statusText headers).statusText = statusText := by
  unfold newResponse
  cases body with
  | none => exact ⟨rfl, rfl, rfl⟩
  | some b =>
    cases b with
    | arrayBuffer bytes => exact ⟨rfl, rfl, rfl⟩
    | text s =>
      by_cases hc : (headers.get "Content-Type").isSome = true
      · simp only [hc, if_true, and_self]
      · simp only [hc, if_false, Bool.false_eq_true, and_self]

/-! ## The branches of the handler -/

theorem search_of_query (u : URL) (q : String) (hq : u.query = some q) (hne : q ≠ "") :
    substr1 u.search = q ∧ startsWith u.search "?" = true := by
  have hs : u.search = "?" ++ q := by simp [URL.search, hq, hne]
  have hd : ("?" ++ q).data = '?' :: q.data := by
    rw [String.data_append]; rfl
  constructor
  · simp only [hs, substr1, hd]; rfl
  · simp [hs, startsWith, hd]

theorem fetch_forward (cfg : Config) (env : Env) (request : Request) (target : String)
    (response : Upstream) (ht : targetUrl request = some target)
    (hp : policyCheck cfg target (request.headers.get "Origin") = true)
    (hs : startsWith request.url.search "?" = true)
    (hb : env.buildsRequest (newRequest env request) = true)
    (hu : env.fetch target (newRequest env request) = some response) :
    fetch cfg env request =
      Outcome.mk [(target, newRequest env request)] (forwardResult env request response) := by
  simp [fetch, ht, hp, hs, hb, hu]

theorem fetch_rejected (cfg : Config) (env : Env) (request : Request) (target : String)
    (ht : targetUrl request = some target)
    (hp : policyCheck cfg target (request.headers.get "Origin") = true)
    (hs : startsWith request.url.search "?" = true)
    (hb : env.buildsRequest (newRequest env request) = true)
    (hu : env.fetch target (newRequest env request) = none) :
    fetch cfg env request =
      Outcome.mk [(target, newRequest env request)] (Except.error Failure.fetchRejected) := by
  simp [fetch, ht, hp, hs, hb, hu]

theorem fetch_unbuilt (cfg : Config) (env : Env) (request : Request) (target : String)
    (ht : targetUrl request = some target)
    (hp : policyCheck cfg target (request.headers.get "Origin") = true)
    (hs : startsWith request.url.search "?" = true)
    (hb : env.buildsRequest (newRequest env request) = false) :
    fetch cfg env request = Outcome.mk [] (Except.error Failure.typeError) := by
  simp [fetch, ht, hp, hs, hb]

theorem fetch_info (cfg : Config) (env : Env) (request : Request) (target : String)
    (ht : targetUrl request = some target)
    (hp : policyCheck cfg target (request.headers.get "Origin") = true)
    (hs : startsWith request.url.search "?" = false) :
    fetch cfg env request =
      Outcome.mk [] (Except.ok (infoResponse env request (customHeaders env request))) := by
  simp [fetch, ht, hp, hs]

theorem fetch_forbidden (cfg : Config) (env : Env) (request : Request) (target : String)
    (ht : targetUrl request = some target)
    (hp : policyCheck cfg target (request.headers.get "Origin") = false) :
    fetch cfg env request = Outcome.mk [] (Except.ok forbiddenResponse) := by
  simp [fetch, ht, hp]

theorem upstreamCall_ok (env : Env) (request : Request) (target : String) (response : Upstream) :
    upstreamCall env request target = Except.ok response ↔
      env.buildsRequest (newRequest env request) = true ∧
        env.fetch target (newRequest env request) = some response := by
  unfold upstreamCall
  by_cases hb : env.buildsRequest (newRequest env request) = true
  · cases hu : env.fetch target (newRequest env request) with
    | none => simp [hb]
    | some u => simp [hb]
  · simp [hb]

theorem upstreamCall_rejected (env : Env) (request : Request) (target : String) :
    upstreamCall env request target = Except.error Failure.fetchRejected ↔
      env.buildsRequest (newRequest env request) = true ∧
        env.fetch target (newRequest env request) = none := by
  unfold upstreamCall
  by_cases hb : env.buildsRequest (newRequest env request) = true
  · cases hu : env.fetch target (newRequest env request) with
    | none => simp [hb]
    | some u => simp [hb]
  · simp [hb]

/-! ## The constructor of the response -/

theorem construct_accepts (l : Bool) (b : Option Body) (s : Nat) (t : String) (h : Headers)
    (hr : 200 ≤ s ∧ s ≤ 599) (hb : b = none ∨ nullBodyStatus s = false) :
    constructResponse l b s t h = Except.ok (newResponse b s t h) := by
  unfold constructResponse
  have hrange : ¬ (s < 200 ∨ 599 < s) := by omega
  rw [if_neg hrange]
  rcases hb with hb | hb
  · subst hb
    by_cases hn : nullBodyStatus s = true
    · simp [hn]
    · simp [hn]
  · simp [hb]

theorem construct_ok (l : Bool) (b : Option Body) (s : Nat) (t : String) (h : Headers)
    (r : Response) (hr : constructResponse l b s t h = Except.ok r) :
    r = newResponse b s t h ∨ r = newResponse none s t h := by
  unfold constructResponse at hr
  by_cases hrange : s < 200 ∨ 599 < s
  · rw [if_pos hrange] at hr
    cases hr
  · rw [if_neg hrange] at hr
    by_cases hn : nullBodyStatus s = true
    · rw [if_pos hn] at hr
      cases b with
      | none =>
        simp only [Except.ok.injEq] at hr
        exact Or.inr hr.symm
      | some body =>
        by_cases hl : (l && body.isEmpty) = true
        · simp only [hl, if_true, Except.ok.injEq] at hr
          exact Or.inr hr.symm
        · simp only [hl, if_false] at hr
          cases hr
    · rw [if_neg hn] at hr
      simp only [Except.ok.injEq] at hr
      exact Or.inl hr.symm

theorem forwardResult_accepts (env : Env) (request : Request) (response : Upstream)
    (hacc : isPreflightRequest request = true ∨ acceptsBody response.status = true) :
    forwardResult env request response = Except.ok (forwardResponse env request response) := by
  unfold forwardResult forwardResponse
  rcases hacc with hpre | hst
  · apply construct_accepts
    · simp [forwardStatus, hpre]
    · left
      simp [forwardBody, hpre]
  · by_cases hpre : isPreflightRequest request = true
    · apply construct_accepts
      · simp [forwardStatus, hpre]
      · left
        simp [forwardBody, hpre]
    · simp only [acceptsBody, Bool.and_eq_true, decide_eq_true_eq, Bool.not_eq_true'] at hst
      apply construct_accepts
      · simp only [forwardStatus, hpre, if_false, Bool.false_eq_true]
        exact ⟨hst.1.1, hst.1.2⟩
      · right
        simp only [forwardStatus, hpre, if_false, Bool.false_eq_true]
        exact hst.2

/-- A response that leaves the forwarding branch has the headers, the status
and the status text given to the constructor; its body is the one given,
or `null`. -/
theorem forwardResult_ok (env : Env) (request : Request) (response : Upstream) (r : Response)
    (hr : forwardResult env request response = Except.ok r) :
    r.headers = forwardHeaders env request response ∧
      r.status = forwardStatus request response ∧
      r.statusText = forwardStatusText request response ∧
      (r.body = forwardBody request response ∨ r.body = none) := by
  have hb : forwardBody request response = none ∨
      forwardBody request response = some (Body.arrayBuffer response.body) := by
    unfold forwardBody
    by_cases hpre : isPreflightRequest request = true
    · simp [hpre]
    · simp [hpre]
  rcases construct_ok _ _ _ _ _ r hr with e | e
  · rcases hb with hb | hb
    · rw [hb] at e
      rw [e]
      exact ⟨rfl, rfl, rfl, Or.inr rfl⟩
    · rw [hb] at e
      rw [e]
      exact ⟨rfl, rfl, rfl, Or.inl hb.symm⟩
  · rw [e]
    exact ⟨rfl, rfl, rfl, Or.inr rfl⟩

theorem forwardResponse_headers (env : Env) (request : Request) (response : Upstream) :
    (forwardResponse env request response).headers = forwardHeaders env request response := by
  unfold forwardResponse forwardBody
  by_cases hpre : isPreflightRequest request = true
  · simp [hpre, newResponse]
  · simp [hpre, newResponse]

theorem fetch_forward_ok (cfg : Config) (env : Env) (request : Request) (target : String)
    (response : Upstream) (ht : targetUrl request = some target)
    (hp : policyCheck cfg target (request.headers.get "Origin") = true)
    (hs : startsWith request.url.search "?" = true)
    (hu : upstreamCall env request target = Except.ok response)
    (hacc : isPreflightRequest request = true ∨ acceptsBody response.status = true) :
    fetch cfg env request =
      Outcome.mk [(target, newRequest env request)]
        (Except.ok (forwardResponse env request response)) := by
  obtain ⟨hb, hf⟩ := (upstreamCall_ok env request target response).1 hu
  rw [fetch_forward cfg env request target response ht hp hs hb hf,
    forwardResult_accepts env request response hacc]

/-- A response returned under the policy is the info page, or leaves the
forwarding branch after an upstream call that answered. -/
theorem fetch_ok_cases (cfg : Config) (env : Env) (request : Request) (target : String)
    (r : Response) (ht : targetUrl request = some target)
    (hp : policyCheck cfg target (request.headers.get "Origin") = true)
    (hr : (fetch cfg env request).result = Except.ok r) :
    (startsWith request.url.search "?" = false ∧
        r = infoResponse env request (customHeaders env request)) ∨
      (startsWith request.url.search "?" = true ∧
        ∃ response, upstreamCall env request target = Except.ok response ∧
          forwardResult env request response = Except.ok r) := by
  by_cases hs : startsWith request.url.search "?" = true
  · right
    refine ⟨hs, ?_⟩
    by_cases hb : env.buildsRequest (newRequest env request) = true
    · cases hu : env.fetch target (newRequest env request) with
      | none =>
        rw [fetch_rejected cfg env request target ht hp hs hb hu] at hr
        cases hr
      | some response =>
        rw [fetch_forward cfg env request target response ht hp hs hb hu] at hr
        exact ⟨response, (upstreamCall_ok env request target response).2 ⟨hb, hu⟩, hr⟩
    · have hb2 : env.buildsRequest (newRequest env request) = false := by simpa using hb
      rw [fetch_unbuilt cfg env request target ht hp hs hb2] at hr
      cases hr
  · left
    have hs2 : startsWith request.url.search "?" = false := by simpa using hs
    rw [fetch_info cfg env request target ht hp hs2] at hr
    simp only [Except.ok.injEq] at hr
    exact ⟨hs2, hr.symm⟩

/-! ## CORS rewriting -/

theorem setupCORS_allowOrigin (request : Request) (h : Headers) :
    (setupCORSHeaders request h).get "Access-Control-Allow-Origin" = some "*" := by
  unfold setupCORSHeaders
  by_cases hpre : isPreflightRequest request = true
  · simp only [hpre, if_true]
    rw [Headers.get_delete_other _ _ _ (by decide)]
    cases request.headers.get "access-control-request-headers" with
    | none =>
      simp only
      rw [Headers.get_set_other _ _ _ _ (by decide), Headers.get_set_same _ _ _ _ rfl]
    | some v =>
      by_cases hv : v = ""
      · simp only [hv, if_true]
        rw [Headers.get_set_other _ _ _ _ (by decide), Headers.get_set_same _ _ _ _ rfl]
      · simp only [hv, if_false]
        rw [Headers.get_set_other _ _ _ _ (by decide), Headers.get_set_other _ _ _ _ (by decide),
          Headers.get_set_same _ _ _ _ rfl]
  · simp only [hpre, Bool.false_eq_true, if_false]
    exact Headers.get_set_same _ _ _ _ rfl

theorem forwardHeaders_get (env : Env) (request : Request) (response : Upstream) (name : String)
    (h1 : lower name ≠ lower "Access-Control-Expose-Headers")
    (h2 : lower name ≠ lower "cors-received-headers") :
    (forwardHeaders env request response).get name =
      (setupCORSHeaders request (Headers.mk response.headers.entries)).get name := by
  simp only [forwardHeaders]
  rw [Headers.get_set_other _ _ _ _ h2, Headers.get_set_other _ _ _ _ h1]

theorem forward_get (env : Env) (request : Request) (response : Upstream) (name : String)
    (h1 : lower name ≠ lower "Access-Control-Expose-Headers")
    (h2 : lower name ≠ lower "cors-received-headers") :
    (forwardResponse env request response).headers.get name =
      (setupCORSHeaders request (Headers.mk response.headers.entries)).get name := by
  rw [forwardResponse_headers, forwardHeaders_get env request response name h1 h2]

theorem info_get (env : Env) (request : Request) (custom : JSValue) (name : String)
    (h3 : lower name ≠ lower "content-type") :
    (infoResponse env request custom).headers.get name =
      (setupCORSHeaders request (Headers.mk [])).get name := by
  simp only [infoResponse]
  rw [newResponse_get _ _ _ _ _ h3]

theorem forward_fields (env : Env) (request : Request) (response : Upstream) :
    (forwardResponse env request response).body =
        (if isPreflightRequest request then none else some (Body.arrayBuffer response.body)) ∧
      (forwardResponse env request response).status =
        (if isPreflightRequest request then 200 else response.status) ∧
      (forwardResponse env request response).statusText =
        (if isPreflightRequest request then "OK" else response.statusText) := by
  simp only [forwardResponse]
  exact newResponse_fields _ _ _ _

theorem setupCORS_preflight (request : Request) (h : Headers)
    (hpre : isPreflightRequest request = true) :
    (setupCORSHeaders request h).get "Access-Control-Allow-Methods" =
        some (toStr (request.headers.get "access-control-request-method")) ∧
      (∀ v, request.headers.get "access-control-request-headers" = some v → v ≠ "" →
        (setupCORSHeaders request h).get "Access-Control-Allow-Headers" = some v) ∧
      (setupCORSHeaders request h).get "X-Content-Type-Options" = none := by
  unfold setupCORSHeaders
  simp only [hpre, if_true]
  refine ⟨?_, ?_, Headers.get_delete_same _ _ _ rfl⟩
  · rw [Headers.get_delete_other _ _ _ (by decide)]
    cases request.headers.get "access-control-request-headers" with
    | none => exact Headers.get_set_same _ _ _ _ rfl
    | some v =>
      by_cases hv : v = ""
      · simp only [hv, if_true]
        exact Headers.get_set_same _ _ _ _ rfl
      · simp only [hv, if_false]
        rw [Headers.get_set_other _ _ _ _ (by decide)]
        exact Headers.get_set_same _ _ _ _ rfl
  · intro v hv hne
    rw [Headers.get_delete_other _ _ _ (by decide)]
    simp only [hv, hne, if_false]
    exact Headers.get_set_same _ _ _ _ rfl

/-- Under the policy, a request without a target, or one whose upstream call
answers with a status the constructor takes, gets a response: the info page
or the rewritten upstream response. -/
theorem fetch_responds (cfg : Config) (env : Env) (request : Request) (target : String)
    (ht : targetUrl request = some target)
    (hp : policyCheck cfg target (request.headers.get "Origin") = true)
    (hup : startsWith request.url.search "?" = true →
      ∃ response, upstreamCall env request target = Except.ok response ∧
        (isPreflightRequest request = true ∨ acceptsBody response.status = true)) :
    (startsWith request.url.search "?" = false ∧
        (fetch cfg env request).result =
          Except.ok (infoResponse env request (customHeaders env request))) ∨
      (∃ response, upstreamCall env request target = Except.ok response ∧
        (fetch cfg env request).result = Except.ok (forwardResponse env request response)) := by
  by_cases hs : startsWith request.url.search "?" = true
  · right
    obtain ⟨response, hu, hacc⟩ := hup hs
    exact ⟨response, hu, by rw [fetch_forward_ok cfg env request target response ht hp hs hu hacc]⟩
  · left
    have hs2 : startsWith request.url.search "?" = false := by simpa using hs
    exact ⟨hs2, by rw [fetch_info cfg env request target ht hp hs2]⟩

/-! ## The target of the forwarded request -/

/-- C1: for an allowed request whose query `q` is not empty and decodes twice,
the handler forwards to exactly `decodeURIComponent(decodeURIComponent(q))`:
every upstream call it makes goes to that target, and it makes that one
call once `new Request` has built the outbound request; for the query
`https%3A%2F%2Fexample.com%2Fdata` the target is `https://example.com/data`. -/
theorem forwarded_target_double_decoded (cfg : Config) (env : Env) (request : Request)
    (q once target : String) (hq : request.url.query = some q) (hne : q ≠ "")
    (h1 : decodeURIComponent q = some once) (h2 : decodeURIComponent once = some target)
    (hp : policyCheck cfg target (request.headers.get "Origin") = true) :
    (∀ call ∈ (fetch cfg env request).fetched, call.1 = target) ∧
      (env.buildsRequest (newRequest env request) = true →
        (fetch cfg env request).fetched.map Prod.fst = [target]) ∧
      (q = "https%3A%2F%2Fexample.com%2Fdata" → target = "https://example.com/data") := by
  obtain ⟨hsub, hs⟩ := search_of_query request.url q hq hne
  have ht : targetUrl request = some target := by
    simp only [targetUrl, hsub, h1, h2]
  have hbuilt : env.buildsRequest (newRequest env request) = true →
      (fetch cfg env request).fetched = [(target, newRequest env request)] := by
    intro hb
    cases hu : env.fetch target (newRequest env request) with
    | none => rw [fetch_rejected cfg env request target ht hp hs hb hu]
    | some response => rw [fetch_forward cfg env request target response ht hp hs hb hu]
  refine ⟨?_, ?_, ?_⟩
  · intro call hcall
    by_cases hb : env.buildsRequest (newRequest env request) = true
    · rw [hbuilt hb] at hcall
      rw [List.mem_singleton.1 hcall]
    · have hb2 : env.buildsRequest (newRequest env request) = false := by simpa using hb
      rw [fetch_unbuilt cfg env request target ht hp hs hb2] at hcall
      cases hcall
  · intro hb
    rw [hbuilt hb]
    rfl
  · intro hq2
    subst hq2
    have e1 : decodeURIComponent "https%3A%2F%2Fexample.com%2Fdata"
        = some "https://example.com/data" := by decide
    have e2 : decodeURIComponent "https://example.com/data"
        = some "https://example.com/data" := by decide
    rw [e1] at h1
    cases h1
    rw [e2] at h2
    cases h2
    rfl

theorem forwarded_target_double_decoded_witness :
    (fetch defaultConfig envUp getData).fetched.map Prod.fst = ["https://example.com/data"] :=
  (forwarded_target_double_decoded defaultConfig envUp getData
    "https%3A%2F%2Fexample.com%2Fdata" "https://example.com/data" "https://example.com/data"
    rfl (by decide) (by decide) (by decide) (by decide)).2.1 (by decide)

/-! ## Response headers, status and body -/

/-- The headers of a response returned under the policy, other than the two
the forwarding branch sets last and the content type, are those
`setupCORSHeaders` gives for some header set. -/
theorem allowed_response_get (cfg : Config) (env : Env) (request : Request) (target : String)
    (r : Response) (name : String) (ht : targetUrl request = some target)
    (hp : policyCheck cfg target (request.headers.get "Origin") = true)
    (hr : (fetch cfg env request).result = Except.ok r)
    (h1 : lower name ≠ lower "Access-Control-Expose-Headers")
    (h2 : lower name ≠ lower "cors-received-headers")
    (h3 : lower name ≠ lower "content-type") :
    ∃ base, r.headers.get name = (setupCORSHeaders request base).get name := by
  rcases fetch_ok_cases cfg env request target r ht hp hr with ⟨_, e⟩ | ⟨_, response, _, e⟩
  · exact ⟨Headers.mk [], by rw [e, info_get env request _ _ h3]⟩
  · refine ⟨Headers.mk response.headers.entries, ?_⟩
    rw [(forwardResult_ok env request response r e).1,
      forwardHeaders_get env request response name h1 h2]

theorem allow_origin_star_aux (cfg : Config) (env : Env) (request : Request) (target : String)
    (r : Response) (ht : targetUrl request = some target)
    (hp : policyCheck cfg target (request.headers.get "Origin") = true)
    (hr : (fetch cfg env request).result = Except.ok r) :
    r.headers.get "Access-Control-Allow-Origin" = some "*" := by
  obtain ⟨base, hb⟩ := allowed_response_get cfg env request target r
    "Access-Control-Allow-Origin" ht hp hr (by decide) (by decide) (by decide)
  rw [hb]
  exact setupCORS_allowOrigin request base

/-- C2: every response to an allowed request (info page, preflight or
forwarded request) has `Access-Control-Allow-Origin: *`, whatever the
`Origin` header and whatever the upstream response carried; and such a
response is returned when there is no target, or when the upstream call
answers with a status the constructor of the response takes. -/
theorem allow_origin_is_star (cfg : Config) (env : Env) (request : Request) (target : String)
    (ht : targetUrl request = some target)
    (hp : policyCheck cfg target (request.headers.get "Origin") = true) :
    (∀ r, (fetch cfg env request).result = Except.ok r →
        r.headers.get "Access-Control-Allow-Origin" = some "*") ∧
      ((startsWith request.url.search "?" = true →
          ∃ response, upstreamCall env request target = Except.ok response ∧
            (isPreflightRequest request = true ∨ acceptsBody response.status = true)) →
        ∃ r, (fetch cfg env request).result = Except.ok r ∧
          r.headers.get "Access-Control-Allow-Origin" = some "*") := by
  refine ⟨fun r hr => allow_origin_star_aux cfg env request target r ht hp hr, ?_⟩
  intro hup
  rcases fetch_responds cfg env request target ht hp hup with ⟨_, hr⟩ | ⟨response, _, hr⟩
  · exact ⟨_, hr, allow_origin_star_aux cfg env request target _ ht hp hr⟩
  · exact ⟨_, hr, allow_origin_star_aux cfg env request target _ ht hp hr⟩

theorem allow_origin_is_star_witness :
    getData.headers.get "Origin" = some "https://caller.example" ∧
      sampleUpstream.headers.get "Access-Control-Allow-Origin" = some "https://a.example" ∧
      ∃ r, (fetch defaultConfig envUp getData).result = Except.ok r ∧
        r.headers.get "Access-Control-Allow-Origin" = some "*" :=
  ⟨by decide, by decide,
    (allow_origin_is_star defaultConfig envUp getData "https://example.com/data"
      (by decide) (by decide)).2
      (fun _ => ⟨sampleUpstream, (upstreamCall_ok _ _ _ _).2 ⟨by decide, rfl⟩,
        Or.inr (by decide)⟩)⟩

/-- C3, as the code has it: an allowed request that is not `OPTIONS`, has a
target, and whose upstream call answers with a status from 200 to 599 that
is not a null-body status, is answered with the upstream status code, status
text and whole body. -/
theorem upstream_status_and_body (cfg : Config) (env : Env) (request : Request)
    (target : String) (response : Upstream)
    (ht : targetUrl request = some target)
    (hp : policyCheck cfg target (request.headers.get "Origin") = true)
    (hs : startsWith request.url.search "?" = true)
    (hm : request.method ≠ "OPTIONS")
    (hu : upstreamCall env request target = Except.ok response)
    (hst : acceptsBody response.status = true) :
    ∃ r, (fetch cfg env request).result = Except.ok r ∧ r.status = response.status ∧
      r.statusText = response.statusText ∧ r.body = some (Body.arrayBuffer response.body) := by
  have hpre : isPreflightRequest request = false := by
    simp [isPreflightRequest, hm]
  refine ⟨forwardResponse env request response, ?_, ?_, ?_, ?_⟩
  · rw [fetch_forward_ok cfg env request target response ht hp hs hu (Or.inr hst)]
  · simp [(forward_fields env request response).2.1, hpre]
  · simp [(forward_fields env request response).2.2, hpre]
  · simp [(forward_fields env request response).1, hpre]

theorem upstream_status_and_body_witness :
    ∃ r, (fetch defaultConfig envUp getData).result = Except.ok r ∧ r.status = 404 ∧
      r.statusText = "Not Found" ∧ r.body = some (Body.arrayBuffer [104, 105]) :=
  upstream_status_and_body defaultConfig envUp getData "https://example.com/data" sampleUpstream
    (by decide) (by decide) (by decide) (by decide)
    ((upstreamCall_ok _ _ _ _).2 ⟨by decide, rfl⟩) (by decide)

/-- C3 fails as stated: the allowed request
`GET /?https%3A%2F%2Fexample.com%2Fdata` whose upstream call answers with the
status 999 gets no response, `new Response` throwing a `RangeError`; and
with the upstream status 204, on a runtime that follows the Fetch standard,
it gets none either, `new Response` throwing a `TypeError`. -/
theorem upstream_status_refused :
    getPlain.method = "GET" ∧
      targetUrl getPlain = some "https://example.com/data" ∧
      policyCheck defaultConfig "https://example.com/data" (getPlain.headers.get "Origin")
        = true ∧
      upstreamCall env999 getPlain "https://example.com/data" = Except.ok upstream999 ∧
      (fetch defaultConfig env999 getPlain).result = Except.error Failure.rangeError ∧
      upstreamCall env204Strict getPlain "https://example.com/data" = Except.ok upstream204 ∧
      (fetch defaultConfig env204Strict getPlain).result = Except.error Failure.typeError := by
  refine ⟨rfl, by decide, by decide, (upstreamCall_ok _ _ _ _).2 ⟨by decide, rfl⟩, ?_,
    (upstreamCall_ok _ _ _ _).2 ⟨by decide, rfl⟩, ?_⟩
  · rw [fetch_forward defaultConfig env999 getPlain "https://example.com/data" upstream999
      (by decide) (by decide) (by decide) (by decide) rfl]
    rfl
  · rw [fetch_forward defaultConfig env204Strict getPlain "https://example.com/data" upstream204
      (by decide) (by decide) (by decide) (by decide) rfl]
    rfl

/-- On the Workers runtime an upstream answer 204 with an empty body is
passed on with the status 204 and a `null` body. -/
theorem null_body_status_on_workers :
    ∃ r, (fetch defaultConfig env204 getPlain).result = Except.ok r ∧ r.status = 204 ∧
      r.statusText = "No Content" ∧ r.body = none := by
  refine ⟨newResponse none 204 "No Content" (forwardHeaders env204 getPlain upstream204), ?_,
    rfl, rfl, rfl⟩
  rw [fetch_forward defaultConfig env204 getPlain "https://example.com/data" upstream204
    (by decide) (by decide) (by decide) (by decide) rfl]
  rfl

/-- The allowed request with `x-cors-headers: {"a b":"x"}` makes no upstream
call: `new Request` throws on the header name `a b`. -/
theorem unbuilt_request_no_call :
    customHeaders envJson getSpaced = JSValue.object [("a b", JSValue.string "x")] ∧
      (newRequest envJson getSpaced).headers =
        [("accept", JSValue.string "*/*"), ("a b", JSValue.string "x")] ∧
      envJson.buildsRequest (newRequest envJson getSpaced) = false ∧
      (fetch defaultConfig envJson getSpaced).fetched = [] ∧
      (fetch defaultConfig envJson getSpaced).result = Except.error Failure.typeError := by
  refine ⟨rfl, rfl, by decide, ?_, ?_⟩
  · rw [fetch_unbuilt defaultConfig envJson getSpaced "https://example.com/data"
      (by decide) (by decide) (by decide) (by decide)]
  · rw [fetch_unbuilt defaultConfig envJson getSpaced "https://example.com/data"
      (by decide) (by decide) (by decide) (by decide)]

/-! ## Preflight requests -/

/-- C4, as the code has it: an allowed `OPTIONS` request with a target is
answered with no body and status 200 `OK` whenever the upstream fetch
answers, whatever the upstream status; when the upstream fetch rejects, the
rejection leaves the handler and no response is returned. -/
theorem preflight_status_and_body (cfg : Config) (env : Env) (request : Request)
    (target : String) (ht : targetUrl request = some target)
    (hp : policyCheck cfg target (request.headers.get "Origin") = true)
    (hs : startsWith request.url.search "?" = true)
    (hm : request.method = "OPTIONS") :
    (∀ response, upstreamCall env request target = Except.ok response →
        ∃ r, (fetch cfg env request).result = Except.ok r ∧ r.body = none ∧ r.status = 200 ∧
          r.statusText = "OK") ∧
      (upstreamCall env request target = Except.error Failure.fetchRejected →
        (fetch cfg env request).result = Except.error Failure.fetchRejected) := by
  have hpre : isPreflightRequest request = true := by
    simp [isPreflightRequest, hm]
  constructor
  · intro response hu
    refine ⟨forwardResponse env request response, ?_, ?_, ?_, ?_⟩
    · rw [fetch_forward_ok cfg env request target response ht hp hs hu (Or.inl hpre)]
    · simp [(forward_fields env request response).1, hpre]
    · simp [(forward_fields env request response).2.1, hpre]
    · simp [(forward_fields env request response).2.2, hpre]
  · intro hu
    obtain ⟨hb, hf⟩ := (upstreamCall_rejected env request target).1 hu
    rw [fetch_rejected cfg env request target ht hp hs hb hf]

theorem preflight_status_and_body_witness :
    ∃ r, (fetch defaultConfig envUp optionsData).result = Except.ok r ∧ r.body = none ∧
      r.status = 200 ∧ r.statusText = "OK" :=
  (preflight_status_and_body defaultConfig envUp optionsData "https://example.com/data"
    (by decide) (by decide) (by decide) rfl).1 sampleUpstream
    ((upstreamCall_ok _ _ _ _).2 ⟨by decide, rfl⟩)

/-- C4 fails as stated: the allowed preflight request
`OPTIONS /?https%3A%2F%2Fexample.com%2Fdata` whose target is unreachable gets
no response at all, hence none with status 200. -/
theorem preflight_unreachable_no_response :
    optionsData.method = "OPTIONS" ∧
      targetUrl optionsData = some "https://example.com/data" ∧
      policyCheck defaultConfig "https://example.com/data" (optionsData.headers.get "Origin")
        = true ∧
      envDown.fetch "https://example.com/data" (newRequest envDown optionsData) = none ∧
      ¬ ∃ r, (fetch defaultConfig envDown optionsData).result = Except.ok r := by
  refine ⟨rfl, by decide, by decide, rfl, ?_⟩
  rw [fetch_rejected defaultConfig envDown optionsData "https://example.com/data"
    (by decide) (by decide) (by decide) (by decide) rfl]
  rintro ⟨r, hr⟩
  cases hr

/-- C5, as the code has it: a request with method `OPTIONS` that policy
allows, that has a query, and whose outbound request `new Request` builds,
issues exactly one upstream fetch, to the decoded target and with the method
`OPTIONS`; a preflight request without a query, one that policy denies, or
one whose outbound request cannot be built, issues none. -/
theorem preflight_fetches (cfg : Config) (env : Env) (request : Request) (target : String)
    (ht : targetUrl request = some target) (hm : request.method = "OPTIONS") :
    (fetch cfg env request).fetched =
        (if policyCheck cfg target (request.headers.get "Origin") = true ∧
            startsWith request.url.search "?" = true ∧
            env.buildsRequest (newRequest env request) = true
          then [(target, newRequest env request)] else []) ∧
      (newRequest env request).method = "OPTIONS" := by
  refine ⟨?_, hm⟩
  by_cases hp : policyCheck cfg target (request.headers.get "Origin") = true
  · by_cases hs : startsWith request.url.search "?" = true
    · by_cases hb : env.buildsRequest (newRequest env request) = true
      · simp only [hp, hs, hb, and_self, if_true]
        cases hu : env.fetch target (newRequest env request) with
        | none => rw [fetch_rejected cfg env request target ht hp hs hb hu]
        | some response => rw [fetch_forward cfg env request target response ht hp hs hb hu]
      · have hb2 : env.buildsRequest (newRequest env request) = false := by simpa using hb
        rw [fetch_unbuilt cfg env request target ht hp hs hb2]
        simp [hb2]
    · have hs2 : startsWith request.url.search "?" = false := by simpa using hs
      rw [fetch_info cfg env request target ht hp hs2]
      simp [hs2]
  · have hp2 : policyCheck cfg target (request.headers.get "Origin") = false := by simpa using hp
    rw [fetch_forbidden cfg env request target ht hp2]
    simp [hp2]

theorem preflight_fetches_witness :
    (fetch defaultConfig envUp optionsData).fetched =
        [("https://example.com/data", newRequest envUp optionsData)] ∧
      (fetch defaultConfig envJson optionsSpaced).fetched = [] := by
  constructor
  · rw [(preflight_fetches defaultConfig envUp optionsData "https://example.com/data"
      (by decide) rfl).1]
    rfl
  · rw [(preflight_fetches defaultConfig envJson optionsSpaced "https://example.com/data"
      (by decide) rfl).1]
    rfl

/-- C5 fails as stated: the preflight request
`OPTIONS /?https%3A%2F%2Fexample.com%2Fdata` with
`access-control-request-method: PUT` contacts `https://example.com/data`. -/
theorem preflight_contacts_target :
    optionsData.method = "OPTIONS" ∧
      optionsData.headers.get "access-control-request-method" = some "PUT" ∧
      (fetch defaultConfig envUp optionsData).fetched.map Prod.fst
        = ["https://example.com/data"] := by
  refine ⟨rfl, by decide, ?_⟩
  rw [fetch_forward defaultConfig envUp optionsData "https://example.com/data" sampleUpstream
    (by decide) (by decide) (by decide) (by decide) rfl]
  rfl

/-- C6, as the code has it: the response to an allowed `OPTIONS` request
carries the inbound `access-control-request-method` value in
`Access-Control-Allow-Methods`, carries the inbound
`access-control-request-headers` value in `Access-Control-Allow-Headers`
whenever that header is present and not empty, and has no
`X-Content-Type-Options` header; and such a response is returned when there
is no target or when the upstream call answers. -/
theorem preflight_headers (cfg : Config) (env : Env) (request : Request) (target : String)
    (ht : targetUrl request = some target)
    (hp : policyCheck cfg target (request.headers.get "Origin") = true)
    (hm : request.method = "OPTIONS") :
    (∀ r, (fetch cfg env request).result = Except.ok r →
        (∀ m, request.headers.get "access-control-request-method" = some m →
          r.headers.get "Access-Control-Allow-Methods" = some m) ∧
        (∀ v, request.headers.get "access-control-request-headers" = some v → v ≠ "" →
          r.headers.get "Access-Control-Allow-Headers" = some v) ∧
        r.headers.get "X-Content-Type-Options" = none) ∧
      ((startsWith request.url.search "?" = true →
          ∃ response, upstreamCall env request target = Except.ok response) →
        ∃ r, (fetch cfg env request).result = Except.ok r) := by
  have hpre : isPreflightRequest request = true := by
    simp [isPreflightRequest, hm]
  constructor
  · intro r hr
    refine ⟨?_, ?_, ?_⟩
    · intro m hmth
      obtain ⟨base, hb⟩ := allowed_response_get cfg env request target r
        "Access-Control-Allow-Methods" ht hp hr (by decide) (by decide) (by decide)
      rw [hb, (setupCORS_preflight request base hpre).1, hmth]
      rfl
    · intro v hv hne
      obtain ⟨base, hb⟩ := allowed_response_get cfg env request target r
        "Access-Control-Allow-Headers" ht hp hr (by decide) (by decide) (by decide)
      rw [hb]
      exact (setupCORS_preflight request base hpre).2.1 v hv hne
    · obtain ⟨base, hb⟩ := allowed_response_get cfg env request target r
        "X-Content-Type-Options" ht hp hr (by decide) (by decide) (by decide)
      rw [hb]
      exact (setupCORS_preflight request base hpre).2.2
  · intro hup
    rcases fetch_responds cfg env request target ht hp
      (fun hs => (hup hs).imp (fun _ h => ⟨h, Or.inl hpre⟩)) with ⟨_, hr⟩ | ⟨response, _, hr⟩
    · exact ⟨_, hr⟩
    · exact ⟨_, hr⟩

theorem preflight_headers_witness :
    sampleUpstream.headers.get "X-Content-Type-Options" = some "nosniff" ∧
      ∃ r, (fetch defaultConfig envUp optionsData).result = Except.ok r ∧
        r.headers.get "Access-Control-Allow-Methods" = some "PUT" ∧
        r.headers.get "Access-Control-Allow-Headers" = some "x-token" ∧
        r.headers.get "X-Content-Type-Options" = none := by
  refine ⟨by decide, ?_⟩
  have h := preflight_headers defaultConfig envUp optionsData "https://example.com/data"
    (by decide) (by decide) rfl
  obtain ⟨r, hr⟩ :=
    h.2 (fun _ => ⟨sampleUpstream, (upstreamCall_ok _ _ _ _).2 ⟨by decide, rfl⟩⟩)
  obtain ⟨a, b, c⟩ := h.1 r hr
  exact ⟨r, hr, a "PUT" (by decide), b "x-token" (by decide) (by decide), c⟩

/-- C6 fails as stated: for an allowed `OPTIONS` request whose
`access-control-request-headers` header is present with the empty value,
`Access-Control-Allow-Headers` is not that value; the response keeps what
the upstream sent. -/
theorem preflight_empty_request_headers :
    optionsEmpty.method = "OPTIONS" ∧
      optionsEmpty.headers.get "access-control-request-headers" = some "" ∧
      ∃ r, (fetch defaultConfig envUp optionsEmpty).result = Except.ok r ∧
        r.headers.get "Access-Control-Allow-Headers" = some "x-up" := by
  refine ⟨rfl, by decide, forwardResponse envUp optionsEmpty sampleUpstream, ?_, by decide⟩
  rw [fetch_forward_ok defaultConfig envUp optionsEmpty "https://example.com/data" sampleUpstream
    (by decide) (by decide) (by decide) ((upstreamCall_ok _ _ _ _).2 ⟨by decide, rfl⟩)
    (Or.inl (by decide))]

/-! ## The policy check -/

theorem foldl_listed (u : String) (l : List Regex) (b : Bool) :
    l.foldl (fun isListed pattern => if pattern.test u then true else isListed) b = true ↔
      b = true ∨ ∃ p ∈ l, p.test u = true := by
  induction l generalizing b with
  | nil => simp
  | cons p ps ih =>
    rw [List.foldl_cons, ih]
    by_cases hp : p.test u = true
    · simp [hp]
    · simp [hp]

theorem isListed_some (u : String) (l : List Regex) :
    isListedInWhitelist (some u) l = true ↔ ∃ p ∈ l, p.test u = true := by
  simp only [isListedInWhitelist]
  rw [foldl_listed]
  simp

theorem policyCheck_iff (cfg : Config) (t : String) (o : Option String) :
    policyCheck cfg t o = true ↔
      (∀ p ∈ cfg.blacklistUrls, p.test t = false) ∧
        (o = none ∨ ∃ s p, o = some s ∧ p ∈ cfg.whitelistOrigins ∧ p.test s = true) := by
  have hdeny : isListedInWhitelist (some t) cfg.blacklistUrls = false ↔
      ∀ p ∈ cfg.blacklistUrls, p.test t = false := by
    rw [← Bool.not_eq_true, isListed_some]
    simp
  simp only [policyCheck, Bool.and_eq_true, Bool.not_eq_true', hdeny]
  cases o with
  | none => simp [isListedInWhitelist]
  | some s =>
    rw [isListed_some]
    simp

theorem forbidden_not_allowed_response (cfg : Config) (env : Env) (request : Request)
    (target : String) (ht : targetUrl request = some target)
    (hp : policyCheck cfg target (request.headers.get "Origin") = true) :
    (fetch cfg env request).result ≠ Except.ok forbiddenResponse := by
  intro hres
  have hnone : forbiddenResponse.headers.get "Access-Control-Allow-Origin" = none := by decide
  have hstar := allow_origin_star_aux cfg env request target forbiddenResponse ht hp hres
  rw [hnone] at hstar
  cases hstar

/-- C7: the handler takes the permitted branch exactly when the target
matches no deny-list pattern and the `Origin` header is absent or matches
some allow-list pattern; the forbidden response is returned exactly
otherwise; a literal pattern matches wherever it occurs in the string; and
the default configuration permits every target when `Origin` is absent. -/
theorem policy_decision (cfg : Config) (t : String) (o : Option String) :
    (policyCheck cfg t o = true ↔
        (∀ p ∈ cfg.blacklistUrls, p.test t = false) ∧
          (o = none ∨ ∃ s p, o = some s ∧ p ∈ cfg.whitelistOrigins ∧ p.test s = true)) ∧
      (∀ (env : Env) (request : Request), targetUrl request = some t →
        request.headers.get "Origin" = o →
        ((fetch cfg env request).result = Except.ok forbiddenResponse ↔
          policyCheck cfg t o = false)) ∧
      (∀ (w : List Char) (s : String), (Regex.lit w).test s = true ↔ w <:+: s.data) ∧
      policyCheck defaultConfig t none = true := by
  refine ⟨policyCheck_iff cfg t o, ?_, test_lit, ?_⟩
  · intro env request ht ho
    subst ho
    constructor
    · intro hres
      by_contra hc
      have hp : policyCheck cfg t (request.headers.get "Origin") = true := by simpa using hc
      exact forbidden_not_allowed_response cfg env request t ht hp hres
    · intro hp
      rw [fetch_forbidden cfg env request t ht hp]
  · simp [policyCheck, defaultConfig, isListedInWhitelist]

theorem policy_decision_witness :
    policyCheck defaultConfig "https://example.com/data" none = true ∧
      ((Regex.lit "example".data).test "https://example.com/data" = true ↔
        "example".data <:+: "https://example.com/data".data) :=
  ⟨(policy_decision defaultConfig "https://example.com/data" none).2.2.2,
    (policy_decision defaultConfig "https://example.com/data" none).2.2.1 _ _⟩

/-- C8: when the decoded target matches a deny-list pattern, the response is
403 `Forbidden` and no upstream fetch is issued. -/
theorem denied_target_forbidden (cfg : Config) (env : Env) (request : Request)
    (target : String) (ht : targetUrl request = some target)
    (hd : ∃ p ∈ cfg.blacklistUrls, p.test target = true) :
    ∃ r, (fetch cfg env request).result = Except.ok r ∧ r.status = 403 ∧
      r.statusText = "Forbidden" ∧ (fetch cfg env request).fetched = [] := by
  have hp : policyCheck cfg target (request.headers.get "Origin") = false := by
    rw [← Bool.not_eq_true, policyCheck_iff]
    rintro ⟨hall, _⟩
    obtain ⟨p, hmem, hpt⟩ := hd
    rw [hall p hmem] at hpt
    cases hpt
  rw [fetch_forbidden cfg env request target ht hp]
  exact ⟨forbiddenResponse, rfl, rfl, rfl, rfl⟩

theorem denied_target_forbidden_witness :
    ∃ r, (fetch blockedConfig envUp getBlocked).result = Except.ok r ∧ r.status = 403 ∧
      r.statusText = "Forbidden" ∧ (fetch blockedConfig envUp getBlocked).fetched = [] :=
  denied_target_forbidden blockedConfig envUp getBlocked "https://blocked.example/secret"
    (by decide)
    ⟨Regex.seq Regex.bol (Regex.lit "https://blocked.example".data), by simp [blockedConfig],
      by decide⟩

/-! ## The header filter -/

theorem mem_insertOrdered (n x : String) (l : List String) :
    x ∈ insertOrdered n l ↔ x = n ∨ x ∈ l := by
  induction l with
  | nil => simp [insertOrdered]
  | cons m ms ih =>
    unfold insertOrdered
    by_cases h2 : charsLE n.data m.data = true
    · simp [h2]
    · simp only [h2, if_false, List.mem_cons, ih, Bool.false_eq_true]
      tauto

theorem nodup_insertOrdered (n : String) (l : List String) (h : l.Nodup) (hn : n ∉ l) :
    (insertOrdered n l).Nodup := by
  induction l with
  | nil => simp [insertOrdered]
  | cons m ms ih =>
    unfold insertOrdered
    have hm := List.nodup_cons.1 h
    by_cases h2 : charsLE n.data m.data = true
    · simp only [h2, if_true]
      exact List.nodup_cons.2 ⟨hn, h⟩
    · simp only [h2, if_false, Bool.false_eq_true]
      have hn2 : n ∉ ms := fun e => hn (List.mem_cons_of_mem _ e)
      refine List.nodup_cons.2 ⟨?_, ih hm.2 hn2⟩
      rw [mem_insertOrdered]
      rintro (e | e)
      · exact hn (by rw [e]; exact List.mem_cons_self _ _)
      · exact hm.1 e

theorem mem_addName (n x : String) (l : List String) : x ∈ addName n l ↔ x = n ∨ x ∈ l := by
  unfold addName
  by_cases h : n ∈ l
  · simp only [h, if_true]
    constructor
    · exact Or.inr
    · rintro (e | e)
      · rw [e]; exact h
      · exact e
  · simp only [h, if_false, mem_insertOrdered]

theorem nodup_addName (n : String) (l : List String) (h : l.Nodup) : (addName n l).Nodup := by
  unfold addName
  by_cases hn : n ∈ l
  · simpa [hn] using h
  · simpa [hn] using nodup_insertOrdered n l h hn

theorem Headers.mem_names (h : Headers) (k : String) :
    k ∈ h.names ↔ ∃ p ∈ h.list, lower p.1 = k := by
  unfold Headers.names
  induction h.list with
  | nil => simp
  | cons p ps ih =>
    simp only [List.foldr_cons, mem_addName, ih, List.mem_cons, exists_eq_or_imp]
    constructor
    · rintro (e | e)
      · exact Or.inl e.symm
      · exact Or.inr e
    · rintro (e | e)
      · exact Or.inl e.symm
      · exact Or.inr e

theorem Headers.nodup_names (h : Headers) : h.names.Nodup := by
  unfold Headers.names
  induction h.list with
  | nil => simp
  | cons p ps ih => exact nodup_addName _ _ ih

theorem Headers.mem_entries (h : Headers) (k v : String) :
    (k, v) ∈ h.entries ↔ (∃ p ∈ h.list, lower p.1 = k) ∧ h.get k = some v := by
  unfold Headers.entries
  rw [List.mem_filterMap, ← Headers.mem_names]
  constructor
  · rintro ⟨n, hn, hmap⟩
    cases hg : h.get n with
    | none => simp [hg] at hmap
    | some w =>
      simp only [hg, Option.map_some', Option.some.injEq, Prod.mk.injEq] at hmap
      obtain ⟨e1, e2⟩ := hmap
      subst e1
      subst e2
      exact ⟨hn, hg⟩
  · rintro ⟨hn, hg⟩
    exact ⟨k, hn, by simp [hg]⟩

theorem keys_filterMap (g : String → Option String) (l : List String) :
    (l.filterMap (fun n => (g n).map (fun v => (n, v)))).map Prod.fst =
      l.filter (fun n => (g n).isSome) := by
  induction l with
  | nil => rfl
  | cons n ns ih =>
    cases hg : g n with
    | none => simp [List.filterMap_cons, hg, ih]
    | some w => simp [List.filterMap_cons, hg, ih]

theorem Headers.nodup_entries (h : Headers) : (h.entries.map Prod.fst).Nodup := by
  unfold Headers.entries
  rw [keys_filterMap]
  exact List.Nodup.filter _ h.nodup_names

theorem assign_fresh (obj : JSObject) (key : String) (value : JSValue)
    (hk : key ≠ "__proto__")
    (h : key ∉ obj.map Prod.fst) : JSObject.assign obj key value = obj ++ [(key, value)] := by
  have hany : obj.any (fun p => p.1 == key) = false := by
    rw [← Bool.not_eq_true, List.any_eq_true]
    rintro ⟨p, hp, he⟩
    exact h (List.mem_map.2 ⟨p, hp, by simpa using he⟩)
  simp [JSObject.assign, hany, hk]

theorem mem_assign (obj : JSObject) (key : String) (value : JSValue) (k : String) (v : JSValue)
    (h : (k, v) ∈ JSObject.assign obj key value) : (k, v) ∈ obj ∨ (k = key ∧ v = value) := by
  unfold JSObject.assign at h
  by_cases hproto : key = "__proto__"
  · simp only [hproto, if_true] at h
    exact Or.inl h
  simp only [hproto, if_false] at h
  by_cases hany : obj.any (fun p => p.1 == key) = true
  · simp only [hany, if_true, List.mem_map] at h
    obtain ⟨p, hp, he⟩ := h
    by_cases hk : p.1 = key
    · simp only [hk, beq_self_eq_true, if_true, Prod.mk.injEq] at he
      exact Or.inr ⟨he.1.symm, he.2.symm⟩
    · simp only [beq_iff_eq, hk, if_false] at he
      rw [he] at hp
      exact Or.inl hp
  · simp only [hany, if_false, List.mem_append, List.mem_singleton, Prod.mk.injEq,
      Bool.false_eq_true] at h
    exact h

theorem mem_foldl_assign (l : List (String × JSValue)) (acc : JSObject) (k : String)
    (v : JSValue)
    (h : (k, v) ∈ l.foldl (fun obj entry => JSObject.assign obj entry.1 entry.2) acc) :
    (k, v) ∈ acc ∨ k ∈ l.map Prod.fst := by
  induction l generalizing acc with
  | nil => exact Or.inl h
  | cons e es ih =>
    rw [List.foldl_cons] at h
    rcases ih _ h with h1 | h1
    · rcases mem_assign acc e.1 e.2 k v h1 with h2 | h2
      · exact Or.inl h2
      · exact Or.inr (by simp [h2.1])
    · exact Or.inr (by simp only [List.map_cons, List.mem_cons]; exact Or.inr h1)

/-- The loop over the inbound entries, whose keys are distinct, collects the
entries that pass the filter. -/
theorem foldl_keep (l : List (String × String)) (acc : JSObject)
    (hnd : (acc.map Prod.fst ++ l.map Prod.fst).Nodup) :
    l.foldl (fun obj kv =>
        if keepsHeader kv.1 then JSObject.assign obj kv.1 (JSValue.string kv.2) else obj) acc =
      acc ++ (l.filter (fun kv => keepsHeader kv.1 && !(kv.1 == "__proto__"))).map
        (fun kv => (kv.1, JSValue.string kv.2)) := by
  induction l generalizing acc with
  | nil => simp
  | cons e es ih =>
    rw [List.foldl_cons]
    have hnd2 := hnd
    simp only [List.map_cons] at hnd2
    have hfresh : e.1 ∉ acc.map Prod.fst := by
      intro hmem
      have := List.nodup_append.1 hnd2
      exact this.2.2 hmem (List.mem_cons_self _ _)
    have hrest : (acc.map Prod.fst ++ es.map Prod.fst).Nodup := by
      have hsub : (acc.map Prod.fst ++ es.map Prod.fst).Sublist
          (acc.map Prod.fst ++ (e.1 :: es.map Prod.fst)) :=
        List.Sublist.append_left (List.sublist_cons_self _ _) _
      exact List.Nodup.sublist hsub hnd2
    by_cases hk : keepsHeader e.1 = true
    · by_cases hproto : e.1 = "__proto__"
      · have hnoop : JSObject.assign acc e.1 (JSValue.string e.2) = acc := by
          simp [JSObject.assign, hproto]
        simp only [hk, if_true, hnoop, List.filter_cons, hproto, beq_self_eq_true,
          Bool.not_true, Bool.and_false, Bool.false_eq_true, if_false]
        have := ih acc hrest
        simpa [hproto] using this
      · have hb : (keepsHeader e.1 && !(e.1 == "__proto__")) = true := by simp [hk, hproto]
        simp only [hk, if_true, List.filter_cons, hb, List.map_cons]
        rw [assign_fresh acc e.1 _ hproto hfresh, ih]
        · simp [hk, hproto]
        · have : (acc ++ [(e.1, JSValue.string e.2)]).map Prod.fst ++ es.map Prod.fst
              = acc.map Prod.fst ++ (e.1 :: es.map Prod.fst) := by simp
          rw [this]
          exact hnd2
    · simp only [hk, if_false, List.filter_cons, Bool.false_eq_true, Bool.false_and]
      exact ih acc hrest

theorem keepsHeader_iff (k : String) :
    keepsHeader k = true ↔
      ¬ "origin".data <+: k.data ∧ ¬ "eferer".data <:+: k.data ∧ ¬ "cf-".data <+: k.data ∧
        ¬ "x-forw".data <+: k.data ∧ ¬ "x-cors-headers".data <+: k.data := by
  simp only [keepsHeader, patOrigin, patEferer, patCf, patXForw, patXCorsHeaders,
    Bool.and_eq_true, Bool.not_eq_true', ← Bool.not_eq_true, test_bol_lit, test_lit]
  tauto

theorem mem_filtered_null (request : Request) (k : String) (v : JSValue) :
    (k, v) ∈ filteredHeaders request JSValue.null ↔
      ∃ hv, v = JSValue.string hv ∧ (k, hv) ∈ request.headers.entries ∧ keepsHeader k = true ∧
        k ≠ "__proto__" := by
  have hnd : (([] : JSObject).map Prod.fst ++ request.headers.entries.map Prod.fst).Nodup := by
    simpa using request.headers.nodup_entries
  simp only [filteredHeaders]
  rw [foldl_keep _ _ hnd]
  simp only [List.nil_append, List.mem_map, List.mem_filter, Prod.mk.injEq, Bool.and_eq_true,
    Bool.not_eq_true', beq_eq_false_iff_ne, ne_eq]
  constructor
  · rintro ⟨e, ⟨he, hk, hproto⟩, e1, e2⟩
    subst e1
    exact ⟨e.2, e2.symm, he, hk, hproto⟩
  · rintro ⟨hv, e1, he, hk, hproto⟩
    exact ⟨(k, hv), ⟨he, hk, hproto⟩, rfl, e1.symm⟩

theorem mem_filtered (request : Request) (custom : JSValue) (k : String) (v : JSValue)
    (h : (k, v) ∈ filteredHeaders request custom) :
    (k, v) ∈ filteredHeaders request JSValue.null ∨
      (custom ≠ JSValue.null ∧ k ∈ (objectEntries custom).map Prod.fst) := by
  cases custom with
  | null => exact Or.inl h
  | bool b =>
    rcases mem_foldl_assign _ _ k v h with h1 | h1
    · exact Or.inl h1
    · exact Or.inr ⟨by simp, h1⟩
  | number q =>
    rcases mem_foldl_assign _ _ k v h with h1 | h1
    · exact Or.inl h1
    · exact Or.inr ⟨by simp, h1⟩
  | string s =>
    rcases mem_foldl_assign _ _ k v h with h1 | h1
    · exact Or.inl h1
    · exact Or.inr ⟨by simp, h1⟩
  | array xs =>
    rcases mem_foldl_assign _ _ k v h with h1 | h1
    · exact Or.inl h1
    · exact Or.inr ⟨by simp, h1⟩
  | object props =>
    rcases mem_foldl_assign _ _ k v h with h1 | h1
    · exact Or.inl h1
    · exact Or.inr ⟨by simp, h1⟩

/-- C9, as the code has it: with no `x-cors-headers` header, an inbound header
(other than one called `__proto__`) is in the outbound header set, under its
lower-case name and with its value, exactly when its name does not start
with `origin`, contain `eferer`, start with `cf-`, start with `x-forw` or
start with `x-cors-headers`. -/
theorem outbound_headers_without_overrides (env : Env) (request : Request) (k : String)
    (v : JSValue) (hnone : request.headers.get "x-cors-headers" = none)
    (hproto : k ≠ "__proto__") :
    (k, v) ∈ (newRequest env request).headers ↔
      ∃ hv, v = JSValue.string hv ∧ (∃ p ∈ request.headers.list, lower p.1 = k) ∧
        request.headers.get k = some hv ∧
        ¬ "origin".data <+: k.data ∧ ¬ "eferer".data <:+: k.data ∧ ¬ "cf-".data <+: k.data ∧
        ¬ "x-forw".data <+: k.data ∧ ¬ "x-cors-headers".data <+: k.data := by
  have hc : customHeaders env request = JSValue.null := by
    simp [customHeaders, hnone]
  simp only [newRequest, hc, mem_filtered_null, Headers.mem_entries, keepsHeader_iff]
  constructor
  · rintro ⟨hv, e, ⟨hn, hg⟩, hk, _⟩
    exact ⟨hv, e, hn, hg, hk⟩
  · rintro ⟨hv, e, hn, hg, hk⟩
    exact ⟨hv, e, ⟨hn, hg⟩, hk, hproto⟩

theorem outbound_headers_without_overrides_witness :
    ("accept", JSValue.string "*/*") ∈ (newRequest envUp getExtra).headers :=
  (outbound_headers_without_overrides envUp getExtra "accept" (JSValue.string "*/*")
    (by decide) (by decide)).2
    ⟨"*/*", rfl, ⟨("Accept", "*/*"), by simp [getExtra], by decide⟩, by decide, by decide,
      by decide, by decide, by decide, by decide⟩

/-- C9 fails as stated: with no overrides, the inbound header
`x-cors-headers-extra`, whose name is longer than `x-cors-headers` and
matches none of the other patterns, is not forwarded. -/
theorem longer_carrier_name_dropped :
    getExtra.headers.get "x-cors-headers" = none ∧
      ("x-cors-headers-extra", "1") ∈ getExtra.headers.entries ∧
      ¬ "origin".data <+: "x-cors-headers-extra".data ∧
      ¬ "eferer".data <:+: "x-cors-headers-extra".data ∧
      ¬ "cf-".data <+: "x-cors-headers-extra".data ∧
      ¬ "x-forw".data <+: "x-cors-headers-extra".data ∧
      "x-cors-headers-extra" ≠ "x-cors-headers" ∧
      (newRequest envUp getExtra).headers.map Prod.fst = ["accept"] := by
  refine ⟨by decide, by decide, by decide, by decide, by decide, by decide, by decide, by decide⟩

/-- C10: every entry of the outbound header set either comes from the
inbound headers, with the inbound value and a name that matches none of the
exclusion patterns, or has a key of the override value. -/
theorem outbound_entry_origin (request : Request) (custom : JSValue) (k : String)
    (v : JSValue) (h : (k, v) ∈ filteredHeaders request custom) :
    (∃ hv, v = JSValue.string hv ∧ (∃ p ∈ request.headers.list, lower p.1 = k) ∧
        request.headers.get k = some hv ∧
        ¬ "origin".data <+: k.data ∧ ¬ "eferer".data <:+: k.data ∧ ¬ "cf-".data <+: k.data ∧
        ¬ "x-forw".data <+: k.data ∧ ¬ "x-cors-headers".data <+: k.data ∧
        k ≠ "x-cors-headers") ∨
      (custom ≠ JSValue.null ∧ k ∈ (objectEntries custom).map Prod.fst) := by
  rcases mem_filtered request custom k v h with h1 | h1
  · left
    rw [mem_filtered_null] at h1
    obtain ⟨hv, e, hmem, hk, _⟩ := h1
    rw [Headers.mem_entries] at hmem
    rw [keepsHeader_iff] at hk
    refine ⟨hv, e, hmem.1, hmem.2, hk.1, hk.2.1, hk.2.2.1, hk.2.2.2.1, hk.2.2.2.2, ?_⟩
    intro hkeq
    apply hk.2.2.2.2
    rw [hkeq]
  · exact Or.inr h1

theorem outbound_entry_origin_witness :
    (∃ hv, JSValue.string "*/*" = JSValue.string hv ∧
        (∃ p ∈ getExtra.headers.list, lower p.1 = "accept") ∧
        getExtra.headers.get "accept" = some hv ∧
        ¬ "origin".data <+: "accept".data ∧ ¬ "eferer".data <:+: "accept".data ∧
        ¬ "cf-".data <+: "accept".data ∧ ¬ "x-forw".data <+: "accept".data ∧
        ¬ "x-cors-headers".data <+: "accept".data ∧ "accept" ≠ "x-cors-headers") ∨
      (JSValue.object [("referer", JSValue.string "https://other.example/")] ≠ JSValue.null ∧
        "accept" ∈ (objectEntries
          (JSValue.object [("referer", JSValue.string "https://other.example/")])).map Prod.fst) :=
  outbound_entry_origin getExtra
    (JSValue.object [("referer", JSValue.string "https://other.example/")])
    "accept" (JSValue.string "*/*")
    (by
      have e : filteredHeaders getExtra
          (JSValue.object [("referer", JSValue.string "https://other.example/")]) =
          [("accept", JSValue.string "*/*"),
            ("referer", JSValue.string "https://other.example/")] := by rfl
      rw [e]
      exact List.mem_cons_self _ _)

/-! ## Overrides -/

theorem mem_assign_self (obj : JSObject) (k : String) (v : JSValue) (hk : k ≠ "__proto__") :
    (k, v) ∈ JSObject.assign obj k v := by
  unfold JSObject.assign
  by_cases hany : obj.any (fun p => p.1 == k) = true
  · simp only [hk, if_false, hany, if_true, List.mem_map]
    obtain ⟨p, hp, he⟩ := List.any_eq_true.1 hany
    have hpk : p.1 = k := by simpa using he
    exact ⟨p, hp, by simp [hpk]⟩
  · simp [hk, hany]

theorem mem_assign_other (obj : JSObject) (key : String) (value : JSValue) (k : String)
    (v : JSValue) (h : (k, v) ∈ obj) (hne : k ≠ key) : (k, v) ∈ JSObject.assign obj key value := by
  unfold JSObject.assign
  by_cases hproto : key = "__proto__"
  · simpa [hproto] using h
  · by_cases hany : obj.any (fun p => p.1 == key) = true
    · simp only [hproto, if_false, hany, if_true, List.mem_map]
      exact ⟨(k, v), h, by simp [hne]⟩
    · simp only [hproto, if_false, hany, List.mem_append, Bool.false_eq_true]
      exact Or.inl h

theorem mem_foldl_assign_keep (l : List (String × JSValue)) (acc : JSObject) (k : String)
    (v : JSValue) (h : (k, v) ∈ acc) (hk : k ∉ l.map Prod.fst) :
    (k, v) ∈ l.foldl (fun obj entry => JSObject.assign obj entry.1 entry.2) acc := by
  induction l generalizing acc with
  | nil => exact h
  | cons e es ih =>
    rw [List.foldl_cons]
    simp only [List.map_cons, List.mem_cons, not_or] at hk
    exact ih _ (mem_assign_other acc e.1 e.2 k v h hk.1) hk.2

theorem mem_foldl_assign_of_mem (l : List (String × JSValue)) (acc : JSObject) (k : String)
    (v : JSValue) (h : (k, v) ∈ l) (hnd : (l.map Prod.fst).Nodup) (hk : k ≠ "__proto__") :
    (k, v) ∈ l.foldl (fun obj entry => JSObject.assign obj entry.1 entry.2) acc := by
  induction l generalizing acc with
  | nil => cases h
  | cons e es ih =>
    rw [List.foldl_cons]
    simp only [List.map_cons, List.nodup_cons] at hnd
    rcases List.mem_cons.1 h with he | he
    · subst he
      exact mem_foldl_assign_keep es _ _ _ (mem_assign_self acc _ _ hk) hnd.1
    · exact ih _ he hnd.2

/-- Every key of an override object other than `__proto__` is in the
outbound header set with the value the override gives it, whatever the
inbound headers hold and whether or not the key passes the filter. -/
theorem override_entry_present (request : Request) (props : List (String × JSValue))
    (k : String) (v : JSValue) (h : (k, v) ∈ props) (hnd : (props.map Prod.fst).Nodup)
    (hk : k ≠ "__proto__") : (k, v) ∈ filteredHeaders request (JSValue.object props) := by
  simp only [filteredHeaders, objectEntries]
  exact mem_foldl_assign_of_mem props _ k v h hnd hk

/-- C11 fails on the code at the override key `__proto__`: for the request
with `x-cors-headers: {"__proto__":"x"}` the override object has that key,
and the outbound header set does not; the other sample shows an override
that replaces `accept` and brings `origin` back. -/
theorem proto_override_dropped :
    getProto.headers.get "x-cors-headers" = some protoText ∧
      customHeaders envJson getProto = JSValue.object [("__proto__", JSValue.string "x")] ∧
      (newRequest envJson getProto).headers = [("accept", JSValue.string "*/*")] ∧
      (newRequest envJson getOverride).headers =
        [("accept", JSValue.string "text/html"),
          ("origin", JSValue.string "https://other.example")] :=
  ⟨by decide, rfl, rfl, rfl⟩

theorem customHeaders_of_parse_failure (env : Env) (request : Request) (raw : String)
    (hget : request.headers.get "x-cors-headers" = some raw) (hparse : env.jsonParse raw = none) :
    customHeaders env request = JSValue.string raw := by
  simp [customHeaders, hget, hparse]

/-- C12 fails on the code: for the request with `x-cors-headers: {bad`, on
which `JSON.parse` throws, `customHeaders` stays the raw text; the outbound
header set has the four keys `0` to `3` that the same request without that
header does not have, and the info page has a line `x-cors-headers: "{bad"`. -/
theorem malformed_overrides_become_entries :
    getBad.headers.get "x-cors-headers" = some badText ∧
      envJson.jsonParse badText = none ∧
      customHeaders envJson getBad = JSValue.string badText ∧
      (newRequest envJson getBad).headers =
        [("accept", JSValue.string "*/*"), ("0", JSValue.string "\x7b"),
          ("1", JSValue.string "b"), ("2", JSValue.string "a"), ("3", JSValue.string "d")] ∧
      (newRequest envJson getPlain).headers = [("accept", JSValue.string "*/*")] ∧
      (fetch defaultConfig envJson getBareBad).result =
        Except.ok (infoResponse envJson getBareBad (customHeaders envJson getBareBad)) ∧
      (infoResponse envJson getBareBad (customHeaders envJson getBareBad)).body =
        some (Body.text (join "\n"
          (infoLines envJson getBareBad (customHeaders envJson getBareBad)))) ∧
      "x-cors-headers: \"\x7bbad\"" ∈
        infoLines envJson getBareBad (customHeaders envJson getBareBad) := by
  refine ⟨by decide, rfl, customHeaders_of_parse_failure _ _ _ (by decide) rfl, rfl, rfl, ?_,
    rfl, ?_⟩
  · rw [fetch_info defaultConfig envJson getBareBad "" (by decide) (by decide) (by decide)]
  · have hc : customHeaders envJson getBareBad = JSValue.string badText :=
      customHeaders_of_parse_failure _ _ _ (by decide) rfl
    rw [hc]
    decide

/-! ## The upstream headers in the response -/

theorem toLower_toLower (c : Char) : c.toLower.toLower = c.toLower := by
  by_cases h : 65 ≤ c.toNat ∧ c.toNat ≤ 90
  · have hc : c = Char.ofNat c.toNat := (Char.ofNat_toNat c).symm
    obtain ⟨h1, h2⟩ := h
    generalize c.toNat = n at hc h1 h2
    subst hc
    interval_cases n <;> decide
  · have : c.toLower = c := by
      simp only [Char.toLower]
      simp [h]
    rw [this, this]

theorem lower_lower (s : String) : lower (lower s) = lower s := by
  simp [lower, List.map_map, Function.comp_def, toLower_toLower]

theorem Headers.get_of_mem (h : Headers) (p : String × String) (hp : p ∈ h.list) :
    ∃ v, h.get (lower p.1) = some v := by
  unfold Headers.get
  have hmem : p ∈ h.list.filter (fun q => lower q.1 == lower (lower p.1)) := by
    rw [List.mem_filter]
    exact ⟨hp, by simp [lower_lower]⟩
  cases hf : h.list.filter (fun q => lower q.1 == lower (lower p.1)) with
  | nil => rw [hf] at hmem; cases hmem
  | cons q qs => exact ⟨_, rfl⟩

theorem Headers.key_of_mem (h : Headers) (p : String × String) (hp : p ∈ h.list) :
    lower p.1 ∈ h.entries.map Prod.fst := by
  obtain ⟨v, hv⟩ := h.get_of_mem p hp
  exact List.mem_map.2 ⟨(lower p.1, v), (h.mem_entries _ _).2 ⟨⟨p, hp, rfl⟩, hv⟩, rfl⟩

theorem forwardHeaders_get_expose (env : Env) (request : Request) (response : Upstream) :
    (forwardHeaders env request response).get "Access-Control-Expose-Headers" =
      some (join "," (response.headers.entries.map Prod.fst ++ ["cors-received-headers"])) := by
  simp only [forwardHeaders]
  rw [Headers.get_set_other _ _ _ _ (by decide), Headers.get_set_same _ _ _ _ rfl]

theorem forwardHeaders_get_received (env : Env) (request : Request) (response : Upstream) :
    (forwardHeaders env request response).get "cors-received-headers" =
      some (env.jsonStringify (JSValue.object
        (response.headers.entries.foldl
          (fun obj kv => JSObject.assign obj kv.1 (JSValue.string kv.2)) []))) := by
  simp only [forwardHeaders]
  rw [Headers.get_set_same _ _ _ _ rfl]

theorem forward_get_expose (env : Env) (request : Request) (response : Upstream) :
    (forwardResponse env request response).headers.get "Access-Control-Expose-Headers" =
      some (join "," (response.headers.entries.map Prod.fst ++ ["cors-received-headers"])) := by
  rw [forwardResponse_headers, forwardHeaders_get_expose]

theorem forward_get_received (env : Env) (request : Request) (response : Upstream) :
    (forwardResponse env request response).headers.get "cors-received-headers" =
      some (env.jsonStringify (JSValue.object
        (response.headers.entries.foldl
          (fun obj kv => JSObject.assign obj kv.1 (JSValue.string kv.2)) []))) := by
  rw [forwardResponse_headers, forwardHeaders_get_received]

/-- C13: for a forwarded request whose upstream call answers, every response
returned has in `Access-Control-Expose-Headers` the comma-separated list of
the lower-case names of all upstream headers followed by
`cors-received-headers`; and such a response is returned when the request is
`OPTIONS` or the upstream status is one the constructor of the response
takes. -/
theorem expose_headers_lists_upstream (cfg : Config) (env : Env) (request : Request)
    (target : String) (response : Upstream)
    (ht : targetUrl request = some target)
    (hp : policyCheck cfg target (request.headers.get "Origin") = true)
    (hs : startsWith request.url.search "?" = true)
    (hu : upstreamCall env request target = Except.ok response) :
    ∃ names, (∀ p ∈ response.headers.list, lower p.1 ∈ names) ∧
      "cors-received-headers" ∈ names ∧
      (∀ r, (fetch cfg env request).result = Except.ok r →
        r.headers.get "Access-Control-Expose-Headers" = some (join "," names)) ∧
      ((isPreflightRequest request = true ∨ acceptsBody response.status = true) →
        ∃ r, (fetch cfg env request).result = Except.ok r ∧
          r.headers.get "Access-Control-Expose-Headers" = some (join "," names)) := by
  have hsafe : ∀ r, (fetch cfg env request).result = Except.ok r →
      r.headers.get "Access-Control-Expose-Headers" =
        some (join "," (response.headers.entries.map Prod.fst ++ ["cors-received-headers"])) := by
    intro r hr
    rcases fetch_ok_cases cfg env request target r ht hp hr with ⟨hs2, _⟩ | ⟨_, resp, hu2, e⟩
    · rw [hs] at hs2
      cases hs2
    · rw [hu] at hu2
      cases hu2
      rw [(forwardResult_ok env request response r e).1, forwardHeaders_get_expose]
  refine ⟨response.headers.entries.map Prod.fst ++ ["cors-received-headers"], ?_, by simp,
    hsafe, ?_⟩
  · intro p hmem
    exact List.mem_append_left _ (response.headers.key_of_mem p hmem)
  · intro hacc
    have hr : (fetch cfg env request).result = Except.ok (forwardResponse env request response) := by
      rw [fetch_forward_ok cfg env request target response ht hp hs hu hacc]
    exact ⟨_, hr, hsafe _ hr⟩

theorem expose_headers_lists_upstream_witness :
    ∃ names, (∀ p ∈ sampleUpstream.headers.list, lower p.1 ∈ names) ∧
      "cors-received-headers" ∈ names ∧
      ∃ r, (fetch defaultConfig envUp getData).result = Except.ok r ∧
        r.headers.get "Access-Control-Expose-Headers" = some (join "," names) := by
  obtain ⟨names, h1, h2, _, h4⟩ :=
    expose_headers_lists_upstream defaultConfig envUp getData "https://example.com/data"
      sampleUpstream (by decide) (by decide) (by decide)
      ((upstreamCall_ok _ _ _ _).2 ⟨by decide, rfl⟩)
  exact ⟨names, h1, h2, h4 (Or.inr (by decide))⟩

/-- The object `allResponseHeaders` holds the upstream entries, those called
`__proto__` left out. -/
theorem foldl_assign_entries (l : List (String × String)) (acc : JSObject)
    (hnd : (acc.map Prod.fst ++ l.map Prod.fst).Nodup) :
    l.foldl (fun obj kv => JSObject.assign obj kv.1 (JSValue.string kv.2)) acc =
      acc ++ (l.filter (fun kv => !(kv.1 == "__proto__"))).map
        (fun kv => (kv.1, JSValue.string kv.2)) := by
  induction l generalizing acc with
  | nil => simp
  | cons e es ih =>
    rw [List.foldl_cons]
    have hnd2 := hnd
    simp only [List.map_cons] at hnd2
    have hfresh : e.1 ∉ acc.map Prod.fst := by
      intro hmem
      exact (List.nodup_append.1 hnd2).2.2 hmem (List.mem_cons_self _ _)
    have hrest : (acc.map Prod.fst ++ es.map Prod.fst).Nodup := by
      have hsub : (acc.map Prod.fst ++ es.map Prod.fst).Sublist
          (acc.map Prod.fst ++ (e.1 :: es.map Prod.fst)) :=
        List.Sublist.append_left (List.sublist_cons_self _ _) _
      exact List.Nodup.sublist hsub hnd2
    by_cases hproto : e.1 = "__proto__"
    · have hnoop : JSObject.assign acc e.1 (JSValue.string e.2) = acc := by
        simp [JSObject.assign, hproto]
      rw [hnoop, ih acc hrest]
      simp [List.filter_cons, hproto]
    · rw [assign_fresh acc e.1 _ hproto hfresh, ih]
      · simp [List.filter_cons, hproto]
      · have : (acc ++ [(e.1, JSValue.string e.2)]).map Prod.fst ++ es.map Prod.fst
            = acc.map Prod.fst ++ (e.1 :: es.map Prod.fst) := by simp
        rw [this]
        exact hnd2

/-- The header `cors-received-headers` of a forwarded response is the
serialization of the upstream entries, read before the CORS rewriting, those
called `__proto__` left out. -/
theorem received_headers_value (env : Env) (request : Request) (response : Upstream) :
    (forwardResponse env request response).headers.get "cors-received-headers" =
      some (env.jsonStringify (JSValue.object
        ((response.headers.entries.filter (fun kv => !(kv.1 == "__proto__"))).map
          (fun kv => (kv.1, JSValue.string kv.2))))) := by
  rw [forward_get_received, foldl_assign_entries _ [] (by simpa using response.headers.nodup_entries)]
  rfl

/-- C14 fails on the code at an upstream header called `__proto__`: the
upstream response has it, `Access-Control-Expose-Headers` names it, and the
object serialized into `cors-received-headers` does not hold it. The other
sample shows the upstream `Access-Control-Allow-Origin` kept in the
serialization while the response header itself is `*`. -/
theorem proto_upstream_header_dropped :
    protoUpstream.headers.entries = [("__proto__", "x"), ("content-type", "text/plain")] ∧
      (∃ r, (fetch defaultConfig envProto getPlain).result = Except.ok r ∧
        r.headers.get "Access-Control-Expose-Headers"
          = some "__proto__,content-type,cors-received-headers" ∧
        r.headers.get "cors-received-headers"
          = some (sampleStringify
              (JSValue.object [("content-type", JSValue.string "text/plain")])) ∧
        r.headers.get "cors-received-headers"
          = some "\x7b\"content-type\":\"text/plain\"\x7d") ∧
      (∃ r, (fetch defaultConfig envJson getPlain).result = Except.ok r ∧
        r.headers.get "Access-Control-Allow-Origin" = some "*" ∧
        r.headers.get "cors-received-headers"
          = some (sampleStringify (JSValue.object
              [("access-control-allow-headers", JSValue.string "x-up"),
                ("access-control-allow-origin", JSValue.string "https://a.example"),
                ("x-content-type-options", JSValue.string "nosniff")]))) := by
  refine ⟨by decide, ⟨forwardResponse envProto getPlain protoUpstream, ?_, by decide, ?_,
    by decide⟩, ⟨forwardResponse envJson getPlain sampleUpstream, ?_, by decide, ?_⟩⟩
  · rw [fetch_forward_ok defaultConfig envProto getPlain "https://example.com/data" protoUpstream
      (by decide) (by decide) (by decide) ((upstreamCall_ok _ _ _ _).2 ⟨by decide, rfl⟩)
      (Or.inr (by decide))]
  · rw [received_headers_value]
    rfl
  · rw [fetch_forward_ok defaultConfig envJson getPlain "https://example.com/data" sampleUpstream
      (by decide) (by decide) (by decide) ((upstreamCall_ok _ _ _ _).2 ⟨by decide, rfl⟩)
      (Or.inr (by decide))]
  · rw [received_headers_value]
    rfl

/-! ## The info page, failures and the forbidden page -/

theorem search_of_empty_query (u : URL) (hq : u.query = none ∨ u.query = some "") :
    u.search = "" := by
  rcases hq with h | h <;> simp [URL.search, h]

theorem fetch_uriError (cfg : Config) (env : Env) (request : Request)
    (ht : targetUrl request = none) :
    fetch cfg env request = Outcome.mk [] (Except.error Failure.uriError) := by
  simp [fetch, ht]

/-- C15: a request whose query is empty and which policy allows makes no
upstream call and gets the info page: status 200 and a body that holds the
usage lines; the lines of that page are fixed by the origin of the URL, the
headers and the connection metadata, whatever the query. -/
theorem empty_query_info_page (cfg : Config) (env : Env) (request : Request)
    (hq : request.url.query = none ∨ request.url.query = some "")
    (hp : policyCheck cfg "" (request.headers.get "Origin") = true) :
    (fetch cfg env request).fetched = [] ∧
      (∃ r, (fetch cfg env request).result = Except.ok r ∧ r.status = 200 ∧
        r.body = some (Body.text
          (join "\n" (infoLines env request (customHeaders env request))))) ∧
      (∃ pre post, infoLines env request (customHeaders env request) =
        pre ++ ["Usage:", request.url.origin ++ "/?uri"] ++ post) ∧
      (∀ other : Request, other.url.origin = request.url.origin →
        other.headers = request.headers → other.cf = request.cf →
        infoLines env other (customHeaders env other) =
          infoLines env request (customHeaders env request)) := by
  have hsearch := search_of_empty_query request.url hq
  have ht : targetUrl request = some "" := by
    simp only [targetUrl, hsearch]
    decide
  have hs : startsWith request.url.search "?" = false := by
    rw [hsearch]
    decide
  have hf := fetch_info cfg env request "" ht hp hs
  refine ⟨by rw [hf], ⟨infoResponse env request (customHeaders env request), by rw [hf], ?_, ?_⟩,
    ?_, ?_⟩
  · exact (newResponse_fields _ _ _ _).2.1
  · exact (newResponse_fields _ _ _ _).1
  · exact ⟨["CLOUDFLARE-CORS-ANYWHERE", "", "Source:", repoUrl, "", "Original:",
      originalRepoUrl, ""], _, rfl⟩
  · intro other h1 h2 h3
    simp only [infoLines, customHeaders, h1, h2, h3]

theorem empty_query_info_page_witness :
    (fetch defaultConfig envJson getBareFull).fetched = [] ∧
      ∃ r, (fetch defaultConfig envJson getBareFull).result = Except.ok r ∧ r.status = 200 ∧
        r.body = some (Body.text
          (join "\n" (infoLines envJson getBareFull (customHeaders envJson getBareFull)))) :=
  ⟨(empty_query_info_page defaultConfig envJson getBareFull (Or.inl rfl) (by decide)).1,
    (empty_query_info_page defaultConfig envJson getBareFull (Or.inl rfl) (by decide)).2.1⟩

/-- C16, as the code has it: when the upstream fetch of an allowed request
with a target rejects, the outbound request having been built, the rejection
leaves the handler: one upstream call was made and no response is returned. -/
theorem upstream_failure_propagates (cfg : Config) (env : Env) (request : Request)
    (target : String) (ht : targetUrl request = some target)
    (hp : policyCheck cfg target (request.headers.get "Origin") = true)
    (hs : startsWith request.url.search "?" = true)
    (hb : env.buildsRequest (newRequest env request) = true)
    (hu : env.fetch target (newRequest env request) = none) :
    (fetch cfg env request).result = Except.error Failure.fetchRejected ∧
      (fetch cfg env request).fetched = [(target, newRequest env request)] ∧
      ¬ ∃ r, (fetch cfg env request).result = Except.ok r := by
  rw [fetch_rejected cfg env request target ht hp hs hb hu]
  refine ⟨rfl, rfl, ?_⟩
  rintro ⟨r, hr⟩
  cases hr

theorem upstream_failure_propagates_witness :
    (fetch defaultConfig envDown getData).result = Except.error Failure.fetchRejected ∧
      (fetch defaultConfig envDown getData).fetched =
        [("https://example.com/data", newRequest envDown getData)] :=
  ⟨(upstream_failure_propagates defaultConfig envDown getData "https://example.com/data"
      (by decide) (by decide) (by decide) (by decide) rfl).1,
    (upstream_failure_propagates defaultConfig envDown getData "https://example.com/data"
      (by decide) (by decide) (by decide) (by decide) rfl).2.1⟩

/-- C16 fails as stated: the allowed request
`GET /?https%3A%2F%2Fexample.com%2Fdata` whose target is unreachable gets no
response, with an error status or any other. -/
theorem unreachable_target_no_response :
    targetUrl getData = some "https://example.com/data" ∧
      policyCheck defaultConfig "https://example.com/data" (getData.headers.get "Origin")
        = true ∧
      envDown.fetch "https://example.com/data" (newRequest envDown getData) = none ∧
      ¬ ∃ r, (fetch defaultConfig envDown getData).result = Except.ok r := by
  refine ⟨by decide, by decide, rfl, ?_⟩
  rw [fetch_rejected defaultConfig envDown getData "https://example.com/data"
    (by decide) (by decide) (by decide) (by decide) rfl]
  rintro ⟨r, hr⟩
  cases hr

/-- C18 fails on the code for the field IP: the info page of `GET /`, sent
with no `CF-Connecting-IP` header, has the line `IP: null`, while it has no
line for the origin, the country and the datacenter, which are absent too;
every field that is present is rendered with its value. -/
theorem absent_ip_rendered_as_null :
    getBare.headers.get "CF-Connecting-IP" = none ∧
      (fetch defaultConfig envJson getBare).result =
        Except.ok (infoResponse envJson getBare (customHeaders envJson getBare)) ∧
      (infoResponse envJson getBare (customHeaders envJson getBare)).body =
        some (Body.text (join "\n" (infoLines envJson getBare (customHeaders envJson getBare)))) ∧
      infoLines envJson getBare (customHeaders envJson getBare) =
        ["CLOUDFLARE-CORS-ANYWHERE", "", "Source:", repoUrl, "", "Original:", originalRepoUrl,
          "", "Usage:", "https://proxy.example/?uri", "", "Donate:", donateUrl, "",
          "Limits: 100,000 requests/day", "          1,000 requests/10 minutes", "",
          "IP: null", ""] ∧
      infoLines envJson getBareFull (customHeaders envJson getBareFull) =
        ["CLOUDFLARE-CORS-ANYWHERE", "", "Source:", repoUrl, "", "Original:", originalRepoUrl,
          "", "Usage:", "https://proxy.example/?uri", "", "Donate:", donateUrl, "",
          "Limits: 100,000 requests/day", "          1,000 requests/10 minutes", "",
          "Origin: https://caller.example", "IP: 203.0.113.7", "Country: NL",
          "Datacenter: AMS", ""] := by
  refine ⟨by decide, ?_, rfl, by decide, by decide⟩
  rw [fetch_info defaultConfig envJson getBare "" (by decide) (by decide) (by decide)]

/-- C19: any two requests that policy denies get the same response, equal
in status, status text, headers and body: the forbidden page, which holds
nothing of the request. -/
theorem forbidden_responses_identical (cfg : Config) (env env2 : Env)
    (request request2 : Request) (target target2 : String)
    (ht : targetUrl request = some target) (ht2 : targetUrl request2 = some target2)
    (hp : policyCheck cfg target (request.headers.get "Origin") = false)
    (hp2 : policyCheck cfg target2 (request2.headers.get "Origin") = false) :
    (fetch cfg env request).result = (fetch cfg env2 request2).result ∧
      (fetch cfg env request).result = Except.ok forbiddenResponse ∧
      forbiddenResponse.status = 403 ∧ forbiddenResponse.statusText = "Forbidden" ∧
      forbiddenResponse.headers.list = [("Content-Type", "text/html")] ∧
      forbiddenResponse.body = some (Body.text forbiddenBody) := by
  rw [fetch_forbidden cfg env request target ht hp,
    fetch_forbidden cfg env2 request2 target2 ht2 hp2]
  exact ⟨rfl, rfl, rfl, rfl, rfl, rfl⟩

theorem forbidden_responses_identical_witness :
    getBlocked.headers.get "Origin" = none ∧
      getBlockedOther.headers.get "Origin" = some "https://evil.example" ∧
      (fetch blockedConfig envUp getBlocked).result =
        (fetch blockedConfig envDown getBlockedOther).result :=
  ⟨by decide, by decide,
    (forbidden_responses_identical blockedConfig envUp envDown getBlocked getBlockedOther
      "https://blocked.example/secret" "https://blocked.example/other"
      (by decide) (by decide) (by decide) (by decide)).1⟩

/-- C20, as the code has it: the handler returns a response for every
request whose query decodes twice, provided that, when the request is
allowed and has a target, the upstream call answers (the outbound request is
built and the fetch does not reject) with a status the constructor of the
response takes; when the decoding throws, the `URIError` leaves the handler
before any upstream call and no response is returned. -/
theorem responds_when_decoding_defined (cfg : Config) (env : Env) (request : Request) :
    (∀ target, targetUrl request = some target →
        (policyCheck cfg target (request.headers.get "Origin") = true →
          startsWith request.url.search "?" = true →
          ∃ response, upstreamCall env request target = Except.ok response ∧
            (isPreflightRequest request = true ∨ acceptsBody response.status = true)) →
        ∃ r, (fetch cfg env request).result = Except.ok r) ∧
      (targetUrl request = none →
        (fetch cfg env request).result = Except.error Failure.uriError ∧
          (fetch cfg env request).fetched = [] ∧
          ¬ ∃ r, (fetch cfg env request).result = Except.ok r) := by
  constructor
  · intro target ht hup
    by_cases hp : policyCheck cfg target (request.headers.get "Origin") = true
    · rcases fetch_responds cfg env request target ht hp (hup hp) with
        ⟨_, hr⟩ | ⟨response, _, hr⟩
      · exact ⟨_, hr⟩
      · exact ⟨_, hr⟩
    · have hp2 : policyCheck cfg target (request.headers.get "Origin") = false := by
        simpa using hp
      exact ⟨forbiddenResponse, by rw [fetch_forbidden cfg env request target ht hp2]⟩
  · intro ht
    rw [fetch_uriError cfg env request ht]
    refine ⟨rfl, rfl, ?_⟩
    rintro ⟨r, hr⟩
    cases hr

theorem responds_when_decoding_defined_witness :
    ∃ r, (fetch defaultConfig envUp getData).result = Except.ok r :=
  (responds_when_decoding_defined defaultConfig envUp getData).1
    "https://example.com/data" (by decide)
    (fun _ _ => ⟨sampleUpstream, (upstreamCall_ok _ _ _ _).2 ⟨by decide, rfl⟩,
      Or.inr (by decide)⟩)

/-- C20 fails as stated: with an upstream that answers, the requests
`GET /?%` and `GET /?https://example.com/100%25` get no response; the
first decoding throws for the one, the second decoding for the other. -/
theorem malformed_escape_no_response :
    decodeURIComponent "%" = none ∧
      decodeURIComponent "https://example.com/100%25" = some "https://example.com/100%" ∧
      decodeURIComponent "https://example.com/100%" = none ∧
      (fetch defaultConfig envUp getPercent).result = Except.error Failure.uriError ∧
      (fetch defaultConfig envUp getPercentEscaped).result = Except.error Failure.uriError ∧
      ¬ (∃ r, (fetch defaultConfig envUp getPercent).result = Except.ok r) ∧
      ¬ (∃ r, (fetch defaultConfig envUp getPercentEscaped).result = Except.ok r) := by
  have h1 : (fetch defaultConfig envUp getPercent).result = Except.error Failure.uriError := by
    rw [fetch_uriError defaultConfig envUp getPercent (by decide)]
  have h2 : (fetch defaultConfig envUp getPercentEscaped).result
      = Except.error Failure.uriError := by
    rw [fetch_uriError defaultConfig envUp getPercentEscaped (by decide)]
  refine ⟨by decide, by decide, by decide, h1, h2, ?_, ?_⟩
  · rintro ⟨r, hr⟩
    rw [h1] at hr
    cases hr
  · rintro ⟨r, hr⟩
    rw [h2] at hr
    cases hr

/-! ## Idempotence of the CORS rewriting -/

theorem setFirst_of_single (n v nm : String) (l : List (String × String))
    (h : l.filter (fun p => lower p.1 == lower n) = [(nm, v)]) : setFirst n v l = l := by
  induction l with
  | nil => rfl
  | cons p ps ih =>
    by_cases hp : lower p.1 = lower n
    · simp only [List.filter_cons, hp, beq_self_eq_true, if_true, List.cons.injEq] at h
      obtain ⟨hpe, hrest⟩ := h
      have hall : ps.filter (fun q => !(lower q.1 == lower n)) = ps := by
        rw [List.filter_eq_self]
        intro q hq
        have hq2 : q ∉ ps.filter (fun p => lower p.1 == lower n) := by
          rw [hrest]; exact List.not_mem_nil _
        rw [List.mem_filter] at hq2
        by_cases hqn : lower q.1 = lower n
        · exact absurd ⟨hq, by simp [hqn]⟩ hq2
        · simp [hqn]
      simp only [setFirst, hp, beq_self_eq_true, if_true, hall]
      rw [hpe]
    · have hf : ps.filter (fun p => lower p.1 == lower n) = [(nm, v)] := by
        simpa [List.filter_cons, hp] using h
      simp [setFirst, hp, ih hf]

theorem Headers.set_of_single (h : Headers) (n v : String)
    (hs : ∃ nm, h.list.filter (fun p => lower p.1 == lower n) = [(nm, v)]) :
    h.set n v = h := by
  obtain ⟨nm, hnm⟩ := hs
  have hany : h.list.any (fun p => lower p.1 == lower n) = true := by
    have hmem : (nm, v) ∈ h.list.filter (fun p => lower p.1 == lower n) := by
      rw [hnm]; exact List.mem_singleton.2 rfl
    rw [List.mem_filter] at hmem
    exact List.any_eq_true.2 ⟨(nm, v), hmem.1, hmem.2⟩
  simp only [Headers.set, hany, if_true, setFirst_of_single n v nm h.list hnm]

theorem Headers.single_set (h : Headers) (n v : String) :
    ∃ nm, (h.set n v).list.filter (fun p => lower p.1 == lower n) = [(nm, v)] := by
  unfold Headers.set
  by_cases hany : h.list.any (fun p => lower p.1 == lower n) = true
  · simp only [hany, if_true]
    exact filter_setFirst_same n v h.list hany
  · have hnone : h.list.filter (fun p => lower p.1 == lower n) = [] := by
      simpa [List.filter_eq_nil_iff] using hany
    exact ⟨n, by simp [hany, hnone]⟩

theorem Headers.filter_set_other (h : Headers) (n v m : String) (hm : lower m ≠ lower n) :
    (h.set n v).list.filter (fun p => lower p.1 == lower m) =
      h.list.filter (fun p => lower p.1 == lower m) := by
  unfold Headers.set
  by_cases hany : h.list.any (fun p => lower p.1 == lower n) = true
  · simp only [hany, if_true, filter_setFirst_other n v m hm]
  · have hnm : ¬ lower n = lower m := fun e => hm e.symm
    simp [hany, hnm]

theorem Headers.filter_delete_other (h : Headers) (n m : String) (hm : lower m ≠ lower n) :
    (h.delete n).list.filter (fun p => lower p.1 == lower m) =
      h.list.filter (fun p => lower p.1 == lower m) := by
  unfold Headers.delete
  simp only [List.filter_filter]
  apply List.filter_congr
  intro q _
  by_cases hqm : lower q.1 = lower m
  · simp [hqm, hm]
  · simp [hqm]

theorem Headers.delete_delete (h : Headers) (n : String) :
    (h.delete n).delete n = h.delete n := by
  simp [Headers.delete, List.filter_filter]

/-- C17: the CORS rewriting of a given request is idempotent: applied to its
own result it changes nothing, neither a header name nor a value, for a
preflight request and for any other. -/
theorem setupCORSHeaders_idempotent (request : Request) (h : Headers) :
    setupCORSHeaders request (setupCORSHeaders request h) = setupCORSHeaders request h := by
  by_cases hpre : isPreflightRequest request = true
  · cases hreq : request.headers.get "access-control-request-headers" with
    | none =>
      have e : setupCORSHeaders request h =
          ((h.set "Access-Control-Allow-Origin" "*").set "Access-Control-Allow-Methods"
            (toStr (request.headers.get "access-control-request-method"))).delete
            "X-Content-Type-Options" := by
        simp [setupCORSHeaders, hpre, hreq]
      have step : ∀ g : Headers, setupCORSHeaders request g =
          ((g.set "Access-Control-Allow-Origin" "*").set "Access-Control-Allow-Methods"
            (toStr (request.headers.get "access-control-request-method"))).delete
            "X-Content-Type-Options" := by
        intro g
        simp [setupCORSHeaders, hpre, hreq]
      rw [step (setupCORSHeaders request h)]
      rw [Headers.set_of_single (setupCORSHeaders request h) "Access-Control-Allow-Origin" "*"
        (by
          rw [e, Headers.filter_delete_other _ _ _ (by decide),
            Headers.filter_set_other _ _ _ _ (by decide)]
          exact Headers.single_set _ _ _)]
      rw [Headers.set_of_single (setupCORSHeaders request h) "Access-Control-Allow-Methods" _
        (by
          rw [e, Headers.filter_delete_other _ _ _ (by decide)]
          exact Headers.single_set _ _ _)]
      rw [e]
      exact Headers.delete_delete _ _
    | some v =>
      by_cases hv : v = ""
      · have step : ∀ g : Headers, setupCORSHeaders request g =
            ((g.set "Access-Control-Allow-Origin" "*").set "Access-Control-Allow-Methods"
              (toStr (request.headers.get "access-control-request-method"))).delete
              "X-Content-Type-Options" := by
          intro g
          simp [setupCORSHeaders, hpre, hreq, hv]
        have e := step h
        rw [step (setupCORSHeaders request h)]
        rw [Headers.set_of_single (setupCORSHeaders request h) "Access-Control-Allow-Origin" "*"
          (by
            rw [e, Headers.filter_delete_other _ _ _ (by decide),
              Headers.filter_set_other _ _ _ _ (by decide)]
            exact Headers.single_set _ _ _)]
        rw [Headers.set_of_single (setupCORSHeaders request h) "Access-Control-Allow-Methods" _
          (by
            rw [e, Headers.filter_delete_other _ _ _ (by decide)]
            exact Headers.single_set _ _ _)]
        rw [e]
        exact Headers.delete_delete _ _
      · have step : ∀ g : Headers, setupCORSHeaders request g =
            (((g.set "Access-Control-Allow-Origin" "*").set "Access-Control-Allow-Methods"
              (toStr (request.headers.get "access-control-request-method"))).set
              "Access-Control-Allow-Headers" v).delete "X-Content-Type-Options" := by
          intro g
          simp [setupCORSHeaders, hpre, hreq, hv]
        have e := step h
        rw [step (setupCORSHeaders request h)]
        rw [Headers.set_of_single (setupCORSHeaders request h) "Access-Control-Allow-Origin" "*"
          (by
            rw [e, Headers.filter_delete_other _ _ _ (by decide),
              Headers.filter_set_other _ _ _ _ (by decide),
              Headers.filter_set_other _ _ _ _ (by decide)]
            exact Headers.single_set _ _ _)]
        rw [Headers.set_of_single (setupCORSHeaders request h) "Access-Control-Allow-Methods" _
          (by
            rw [e, Headers.filter_delete_other _ _ _ (by decide),
              Headers.filter_set_other _ _ _ _ (by decide)]
            exact Headers.single_set _ _ _)]
        rw [Headers.set_of_single (setupCORSHeaders request h) "Access-Control-Allow-Headers" v
          (by
            rw [e, Headers.filter_delete_other _ _ _ (by decide)]
            exact Headers.single_set _ _ _)]
        rw [e]
        exact Headers.delete_delete _ _
  · have step : ∀ g : Headers, setupCORSHeaders request g =
        g.set "Access-Control-Allow-Origin" "*" := by
      intro g
      simp [setupCORSHeaders, hpre]
    rw [step (setupCORSHeaders request h), step h]
    exact Headers.set_of_single _ _ _ (Headers.single_set _ _ _)

end CorsAnywhere
